import Mathlib

/-!
Shallow embedding of the AbyssNetwork IRC gateway server
(`src/IRC/server/src/app.ts`, `src/IRC/server/src/storage/fileStore.ts`,
the validation module imported by `app.ts` as `./validation.js`, and
`src/IRC/server/src/core/roles.ts`), together with theorems settling the
frozen claims about it.

Modelling conventions:
* JavaScript strings are modelled as Lean `String`s (lists of Unicode scalar
  values).  The length checks in the validator use `.length` on a JS string,
  which counts UTF-16 code units; this is modelled exactly by `utf16Len`
  (a scalar value above `0xFFFF` contributes two units).  The control-char
  and whitespace character classes only contain code points below `0x10000`,
  where code units and scalar values coincide, so character tests are exact.
* ISO-8601 timestamp strings compare identically under `localeCompare`,
  under `new Date(..).getTime()` and as numbers; timestamps are therefore
  modelled as `Nat` (milliseconds), with `<` / `≤` for both comparisons.
* `randomUUID()` and `Date.now()` are nondeterministic; model functions take
  the produced values as explicit oracle arguments (`freshId`, `now`, ...).
* JavaScript objects used as string-keyed maps are modelled as association
  lists (`alGet` / `alSet` / `alDel`), updating the first matching key in
  place, which matches JS property-update order.
* `Array.prototype.sort` (stable since ES2019) with the timestamp comparator
  is modelled by the stable insertion sort `sortByTs`.
* The TS field name `alias` is a Lean keyword and is rendered `aliasName`.
-/

namespace AbyssIRC

/-- Roles, from `shared/src/index.ts`: `"OWNER" | "ADMIN" | "OP" | "VOICE" | "MEMBER"`. -/
inductive Role where
  | OWNER
  | ADMIN
  | OP
  | VOICE
  | MEMBER
deriving DecidableEq

/-- `ROLE_WEIGHT` from `core/roles.ts`. -/
def ROLE_WEIGHT : Role → Nat
  | .OWNER => 5
  | .ADMIN => 4
  | .OP => 3
  | .VOICE => 2
  | .MEMBER => 1

/-- `hasRoleAtLeast(role, minimum)` from `core/roles.ts`: `false` for a
null/undefined role, otherwise weight comparison. -/
def hasRoleAtLeast (role : Option Role) (minimum : Role) : Bool :=
  match role with
  | none => false
  | some r => decide (ROLE_WEIGHT r ≥ ROLE_WEIGHT minimum)

/-! ## Validator (the `validation.ts` module imported by `app.ts`) -/

/-- ECMAScript `String.prototype.trim` whitespace class (WhiteSpace plus
LineTerminator code points).  All members are below `0x10000`. -/
def jsWhitespaceChar (c : Char) : Bool :=
  let v := c.toNat
  (0x9 ≤ v && v ≤ 0xD) || v == 0x20 || v == 0xA0 || v == 0x1680 ||
    (0x2000 ≤ v && v ≤ 0x200A) || v == 0x2028 || v == 0x2029 ||
    v == 0x202F || v == 0x205F || v == 0x3000 || v == 0xFEFF

/-- JS `s.trim()`: strip leading and trailing whitespace. -/
def jsTrim (s : String) : String :=
  ⟨((s.data.dropWhile jsWhitespaceChar).reverse.dropWhile jsWhitespaceChar).reverse⟩

/-- JS `s.length`: the number of UTF-16 code units of the string. -/
def utf16Len (s : String) : Nat :=
  (s.data.map fun c => if c.toNat ≥ 0x10000 then 2 else 1).sum

/-- The character class of `CONTROL_CHAR_REGEX`:
`[\u0000-\u0008\u000B\u000C\u000E-\u001F\u007F]` — C0 controls except
TAB (`0x9`), LF (`0xA`) and CR (`0xD`), plus DEL (`0x7F`). -/
def isDisallowedControl (c : Char) : Bool :=
  let v := c.toNat
  v ≤ 0x8 || v == 0xB || v == 0xC || (0xE ≤ v && v ≤ 0x1F) || v == 0x7F

/-- `hasDisallowedControlChars(input)`: `CONTROL_CHAR_REGEX.test(input)`. -/
def hasDisallowedControlChars (s : String) : Bool :=
  s.data.any isDisallowedControl

/-- `ValidationResult` of the validator module. -/
structure ValidationResult where
  ok : Bool
  value : Option String := none
  error : Option String := none
deriving DecidableEq

/-- JS truthiness of a possibly-absent string: `undefined`/`null` and the
empty string are falsy. -/
def jsTruthyStr (o : Option String) : Bool :=
  match o with
  | none => false
  | some s => !(s == "")

/-- `sanitizeText(input)`: empty string for non-string input, otherwise
`input.trim()`.  `none` models a non-string (`undefined`) input. -/
def sanitizeText (input : Option String) : String :=
  match input with
  | none => ""
  | some s => jsTrim s

def MAX_ALIAS_LENGTH : Nat := 24
def MAX_MESSAGE_LENGTH : Nat := 2000
def MAX_CHANNEL_LENGTH : Nat := 49

/-- `normalizeAlias(input)` from the validator module. -/
def normalizeAlias (input : Option String) : ValidationResult :=
  let value := sanitizeText input
  if value = "" then
    { ok := false, error := some "Alias is required." }
  else if utf16Len value > MAX_ALIAS_LENGTH then
    { ok := false, error := some "Alias must be 24 characters or fewer." }
  else if hasDisallowedControlChars value then
    { ok := false, error := some "Alias contains invalid control characters." }
  else
    { ok := true, value := some value }

/-- One character of the channel-name regex class `[A-Za-z0-9_\-]`. -/
def channelClassChar (c : Char) : Bool :=
  ('A' ≤ c && c ≤ 'Z') || ('a' ≤ c && c ≤ 'z') || ('0' ≤ c && c ≤ '9') ||
    c == '_' || c == '-'

/-- `CHANNEL_REGEX.test`: `^#[A-Za-z0-9_\-]{1,48}$`. -/
def channelRegexMatch (s : String) : Bool :=
  match s.data with
  | [] => false
  | c :: rest =>
    c == '#' && decide (1 ≤ rest.length) && decide (rest.length ≤ 48) &&
      rest.all channelClassChar

/-- ASCII lowering; `String.prototype.toLowerCase` restricted to strings that
already matched `CHANNEL_REGEX` (which only admits ASCII), where the two
coincide. -/
def asciiLowerChar (c : Char) : Char :=
  if 'A' ≤ c && c ≤ 'Z' then Char.ofNat (c.toNat + 32) else c

def asciiLower (s : String) : String :=
  ⟨s.data.map asciiLowerChar⟩

/-- `normalizeChannel(input)` from the validator module. -/
def normalizeChannel (input : Option String) : ValidationResult :=
  let value := sanitizeText input
  if value = "" then
    { ok := false, error := some "Channel is required." }
  else if utf16Len value > MAX_CHANNEL_LENGTH then
    { ok := false, error := some "Channel name is too long." }
  else if !channelRegexMatch value then
    { ok := false, error := some "Channel must start with # and contain letters, numbers, _ or -." }
  else
    { ok := true, value := some (asciiLower value) }

/-- `normalizeMessage(input)` from the validator module. -/
def normalizeMessage (input : Option String) : ValidationResult :=
  let value := sanitizeText input
  if value = "" then
    { ok := false, error := some "Message cannot be empty." }
  else if utf16Len value > MAX_MESSAGE_LENGTH then
    { ok := false, error := some "Message must be 2000 characters or fewer." }
  else if hasDisallowedControlChars value then
    { ok := false, error := some "Message contains invalid control characters." }
  else
    { ok := true, value := some value }

/-- `!normalized.ok || !normalized.value` guard used throughout `app.ts`
(negated): the result is ok and its value is a truthy (non-empty) string. -/
def valOk (r : ValidationResult) : Bool :=
  r.ok && jsTruthyStr r.value

/-! ## Association lists modelling JS string-keyed objects -/

/-- Property read `m[k]` (`?? null` / `?? undefined`). -/
def alGet {α : Type} : List (String × α) → String → Option α
  | [], _ => none
  | (k', v) :: rest, k => if k' = k then some v else alGet rest k

/-- Property write `m[k] = v`: replace the first binding of `k` in place, or
append a new binding. -/
def alSet {α : Type} : List (String × α) → String → α → List (String × α)
  | [], k, v => [(k, v)]
  | (k', v') :: rest, k, v =>
    if k' = k then (k, v) :: rest else (k', v') :: alSet rest k v

/-- Property delete `delete m[k]`: remove the first binding of `k`. -/
def alDel {α : Type} : List (String × α) → String → List (String × α)
  | [], _ => []
  | (k', v') :: rest, k => if k' = k then rest else (k', v') :: alDel rest k

/-- `Set.prototype.add`: append if not already present. -/
def setAdd (l : List String) (x : String) : List String :=
  if l.contains x then l else l ++ [x]

/-- `Set.prototype.delete`. -/
def setDel (l : List String) (x : String) : List String :=
  l.filter fun y => y ≠ x

/-! ## Message records (`shared/src/index.ts`) -/

/-- `MessageScopeKind`. -/
inductive ScopeKind where
  | channel
  | dm
  | thread
deriving DecidableEq

/-- `MessageScope`: a kind tag plus optional `channel` / `convoId` /
`threadId` fields. -/
structure MessageScope where
  kind : ScopeKind
  channel : Option String := none
  convoId : Option String := none
  threadId : Option String := none
deriving DecidableEq

/-- `EncryptedDmPayload` (opaque to the gateway; only the fields the claims
mention are carried). -/
structure EncryptedDmPayload where
  algorithm : String := ""
  nonce : String := ""
  ciphertext : String := ""
  senderPublicKey : String := ""
deriving DecidableEq

/-- `MessageKind`. -/
inductive MessageKind where
  | TEXT
  | ACTION
  | NOTICE
deriving DecidableEq

structure Reaction where
  emoji : String
  aliases : List String
deriving DecidableEq

/-- `MessageRecord`. -/
structure MessageRecord where
  messageId : String
  scope : MessageScope
  senderAlias : String
  senderDeviceId : String
  kind : MessageKind
  body : Option String := none
  encryptedPayload : Option EncryptedDmPayload := none
  timestamp : Nat
  replyTo : Option String := none
  threadId : Option String := none
  reactions : List Reaction := []
  deletedAt : Option Nat := none
deriving DecidableEq

/-- `buildScopeKey(scope)` from `fileStore.ts`. -/
def buildScopeKey (scope : MessageScope) : String :=
  match scope.kind with
  | .channel => "channel:" ++ (scope.channel.getD "")
  | .dm => "dm:" ++ (scope.convoId.getD "")
  | .thread => "thread:" ++ (scope.threadId.getD "")

/-! ## Store state (`fileStore.ts`) -/

/-- `AliasRecord`. -/
structure AliasRecord where
  currentDeviceId : String
  activeSessionId : Option String
  lastIp : String
  claimedAt : Nat
  reclaimNonce : String
deriving DecidableEq

/-- `SessionRecord` (`alias` rendered `aliasName`). -/
structure SessionRecord where
  sessionId : String
  deviceId : String
  aliasName : Option String
  ip : String
  connectedAt : Nat
  disconnectedAt : Option Nat
  resumeToken : String
deriving DecidableEq

/-- `ChannelRecord`; `modes` are kept as flag strings. -/
structure ChannelRecord where
  channelId : String
  name : String
  topic : String
  modes : List String
  ownerAlias : String
  createdAt : Nat
deriving DecidableEq

/-- `ChannelMemberRecord` (`alias` rendered `aliasName`). -/
structure ChannelMemberRecord where
  aliasName : String
  role : Role
  joinedAt : Nat
  mutedUntil : Option Nat
  isBanned : Bool
deriving DecidableEq

/-- `DmConversationRecord`. -/
structure DmConversationRecord where
  convoId : String
  aliasA : String
  aliasB : String
  createdAt : Nat
deriving DecidableEq

/-- `BotRecord`. -/
structure BotRecord where
  botId : String
  name : String
  version : String
  permissions : List String
  enabledChannels : List String
  createdAt : Nat
deriving DecidableEq

/-- The `PersistedState` aggregate of `fileStore.ts` (the fields the claims
touch; `devices`, `moderationActions` and `auditEvents` carry no claim-relevant
reads and are omitted as unread sinks). -/
structure StoreState where
  aliases : List (String × AliasRecord) := []
  sessions : List (String × SessionRecord) := []
  channels : List (String × ChannelRecord) := []
  channelMembers : List (String × List (String × ChannelMemberRecord)) := []
  dmConversations : List (String × DmConversationRecord) := []
  messages : List MessageRecord := []
  botApps : List (String × BotRecord) := []
deriving DecidableEq

/-- `EMPTY_STATE`. -/
def EMPTY_STATE : StoreState := {}

/-! ## Store operations (`fileStore.ts`) -/

/-- `claimAlias(alias, deviceId, sessionId, ip, reclaimNonce)`:
unconditionally overwrite the alias record, then point the session row (if
any) at the alias. -/
def storeClaimAlias (st : StoreState) (aliasName deviceId sessionId ip nonce : String)
    (now : Nat) : StoreState :=
  let st := { st with
    aliases := alSet st.aliases aliasName
      { currentDeviceId := deviceId
        activeSessionId := some sessionId
        lastIp := ip
        claimedAt := now
        reclaimNonce := nonce } }
  match alGet st.sessions sessionId with
  | some s =>
    { st with sessions := alSet st.sessions sessionId { s with aliasName := some aliasName } }
  | none => st

/-- `releaseAlias(alias)`. -/
def storeReleaseAlias (st : StoreState) (aliasName : String) : StoreState :=
  match alGet st.aliases aliasName with
  | none => st
  | some r =>
    { st with aliases := alSet st.aliases aliasName { r with activeSessionId := none } }

/-- `getAliasRecord(alias)`. -/
def getAliasRecord (st : StoreState) (aliasName : String) : Option AliasRecord :=
  alGet st.aliases aliasName

/-- `ensureChannel(channel, ownerAlias)`. -/
def ensureChannel (st : StoreState) (channel ownerAlias : String) (now : Nat) :
    StoreState :=
  if (alGet st.channels channel).isSome then st
  else
    let st := { st with
      channels := alSet st.channels channel
        { channelId := channel ++ ":" ++ toString now
          name := channel
          topic := ""
          modes := []
          ownerAlias := ownerAlias
          createdAt := now } }
    if (alGet st.channelMembers channel).isSome then st
    else { st with channelMembers := alSet st.channelMembers channel [] }

/-- `getChannelTopic(channel)`. -/
def getChannelTopic (st : StoreState) (channel : String) : String :=
  ((alGet st.channels channel).map (fun c => c.topic)).getD ""

/-- `setChannelTopic(channel, topic)`: silent no-op when the channel row is
missing. -/
def setChannelTopic (st : StoreState) (channel topic : String) : StoreState :=
  match alGet st.channels channel with
  | none => st
  | some c =>
    { st with channels := alSet st.channels channel { c with topic := topic } }

/-- `upsertMembership(channel, alias, role)`: overwrite the row with the given
role and `isBanned := false`, keeping an existing row's `joinedAt` and
`mutedUntil`. -/
def upsertMembership (st : StoreState) (channel aliasName : String) (role : Role)
    (now : Nat) : StoreState :=
  let members := (alGet st.channelMembers channel).getD []
  let existing := alGet members aliasName
  let row : ChannelMemberRecord :=
    { aliasName := aliasName
      role := role
      joinedAt := (existing.map (fun m => m.joinedAt)).getD now
      mutedUntil := (existing.map (fun m => m.mutedUntil)).getD none
      isBanned := false }
  { st with channelMembers := alSet st.channelMembers channel (alSet members aliasName row) }

/-- `partMembership(channel, alias)`. -/
def partMembership (st : StoreState) (channel aliasName : String) : StoreState :=
  match alGet st.channelMembers channel with
  | none => st
  | some members =>
    if (alGet members aliasName).isNone then st
    else { st with channelMembers := alSet st.channelMembers channel (alDel members aliasName) }

/-- `setMemberRole(channel, alias, role)`. -/
def setMemberRole (st : StoreState) (channel aliasName : String) (role : Role) :
    StoreState :=
  match alGet st.channelMembers channel with
  | none => st
  | some members =>
    match alGet members aliasName with
    | none => st
    | some m =>
      let members' := alSet members aliasName { m with role := role }
      { st with channelMembers := alSet st.channelMembers channel members' }

/-- `setMemberMute(channel, alias, mutedUntil)`. -/
def setMemberMute (st : StoreState) (channel aliasName : String)
    (mutedUntil : Option Nat) : StoreState :=
  match alGet st.channelMembers channel with
  | none => st
  | some members =>
    match alGet members aliasName with
    | none => st
    | some m =>
      let members' := alSet members aliasName { m with mutedUntil := mutedUntil }
      { st with channelMembers := alSet st.channelMembers channel members' }

/-- `setMemberBan(channel, alias, isBanned)`: creates a default MEMBER row when
none exists. -/
def setMemberBan (st : StoreState) (channel aliasName : String) (isBanned : Bool)
    (now : Nat) : StoreState :=
  let members := (alGet st.channelMembers channel).getD []
  let member := (alGet members aliasName).getD
    { aliasName := aliasName, role := .MEMBER, joinedAt := now, mutedUntil := none,
      isBanned := isBanned }
  let member := { member with isBanned := isBanned }
  { st with channelMembers := alSet st.channelMembers channel (alSet members aliasName member) }

/-- `MembershipSummary` as returned by `getMembership`. -/
structure MembershipSummary where
  channel : String
  aliasName : String
  role : Role
  mutedUntil : Option Nat
  isBanned : Bool
deriving DecidableEq

/-- `getMembership(channel, alias)`. -/
def getMembership (st : StoreState) (channel aliasName : String) :
    Option MembershipSummary :=
  (alGet ((alGet st.channelMembers channel).getD []) aliasName).map fun m =>
    { channel := channel, aliasName := aliasName, role := m.role,
      mutedUntil := m.mutedUntil, isBanned := m.isBanned }

/-- The raw membership row, for stating store-level facts. -/
def getMemberRow (st : StoreState) (channel aliasName : String) :
    Option ChannelMemberRecord :=
  alGet ((alGet st.channelMembers channel).getD []) aliasName

/-- `listAllChannels().some((entry) => entry.name === channel)` as evaluated in
`joinChannel`: the channel key is listed (sorting is irrelevant to `some`). -/
def channelListed (st : StoreState) (channel : String) : Bool :=
  (st.channels.map Prod.fst).contains channel

/-- `getOrCreateDmConversation(aliasA, aliasB)`: sort the pair, reuse an
existing conversation with that sorted pair, else create one keyed by a fresh
id.  Returns the new store and the `convoId`. -/
def getOrCreateDmConversation (st : StoreState) (aliasA aliasB : String)
    (now : Nat) (freshId : String) : StoreState × String :=
  let a := if aliasA ≤ aliasB then aliasA else aliasB
  let b := if aliasA ≤ aliasB then aliasB else aliasA
  match (st.dmConversations.map Prod.snd).find?
      (fun conversation => conversation.aliasA == a && conversation.aliasB == b) with
  | some existing => (st, existing.convoId)
  | none =>
    let convos := alSet st.dmConversations freshId
      { convoId := freshId, aliasA := a, aliasB := b, createdAt := now }
    ({ st with dmConversations := convos }, freshId)

/-- `getDmConversation(convoId)`. -/
def getDmConversation (st : StoreState) (convoId : String) :
    Option DmConversationRecord :=
  alGet st.dmConversations convoId

/-- `insertMessage(record)`: `messages.push(record)`. -/
def insertMessage (st : StoreState) (record : MessageRecord) : StoreState :=
  { st with messages := st.messages ++ [record] }

/-- `findMessage(messageId)`. -/
def findMessage (st : StoreState) (messageId : String) : Option MessageRecord :=
  st.messages.find? fun m => m.messageId == messageId

/-- Mutate the first matching array element in place (JS `array.find` followed
by field assignment). -/
def replaceFirst (p : MessageRecord → Bool) (f : MessageRecord → MessageRecord) :
    List MessageRecord → List MessageRecord
  | [] => []
  | x :: rest => if p x then f x :: rest else x :: replaceFirst p f rest

/-- `editMessage(messageId, body)`: set `body` on the found record.  Returns
the new store and the updated record (or `none`). -/
def editMessage (st : StoreState) (messageId body : String) :
    StoreState × Option MessageRecord :=
  match findMessage st messageId with
  | none => (st, none)
  | some m =>
    let messages' := replaceFirst (fun x => x.messageId == messageId)
      (fun x => { x with body := some body }) st.messages
    ({ st with messages := messages' }, some { m with body := some body })

/-- `deleteMessage(messageId)`: set the `deletedAt` tombstone. -/
def deleteMessage (st : StoreState) (messageId : String) (now : Nat) :
    StoreState × Option MessageRecord :=
  match findMessage st messageId with
  | none => (st, none)
  | some m =>
    let messages' := replaceFirst (fun x => x.messageId == messageId)
      (fun x => { x with deletedAt := some now }) st.messages
    ({ st with messages := messages' }, some { m with deletedAt := some now })

/-- Stable insertion of a message into a timestamp-sorted list. -/
def insertByTs (m : MessageRecord) : List MessageRecord → List MessageRecord
  | [] => [m]
  | x :: xs =>
    if m.timestamp ≤ x.timestamp then m :: x :: xs else x :: insertByTs m xs

/-- `messages.sort((a, b) => a.timestamp.localeCompare(b.timestamp))`: a stable
sort ascending by timestamp (ES2019 `Array.prototype.sort` is stable; on
ISO-8601 strings `localeCompare` order is the numeric timestamp order). -/
def sortByTs : List MessageRecord → List MessageRecord
  | [] => []
  | x :: xs => insertByTs x (sortByTs xs)

/-- `array.slice(-limit)`: the last `limit` elements; `slice(-0)` is
`slice(0)`, the whole array. -/
def jsTailSlice {α : Type} (l : List α) (limit : Nat) : List α :=
  if limit = 0 then l else l.drop (l.length - limit)

/-- The `timestamp < before` filter of `listHistory`; an absent `before` is
`Number.POSITIVE_INFINITY`. -/
def beforeOk (before : Option Nat) (m : MessageRecord) : Bool :=
  match before with
  | none => true
  | some b => decide (m.timestamp < b)

/-- `listHistory(scope, limit, before?)` from `fileStore.ts`: keep non-deleted
messages of the same scope key with `timestamp < before`, sort ascending by
timestamp, take the last `limit`. -/
def listHistory (st : StoreState) (scope : MessageScope) (limit : Nat)
    (before : Option Nat) : List MessageRecord :=
  let key := buildScopeKey scope
  jsTailSlice
    (sortByTs
      (((st.messages.filter fun m => m.deletedAt.isNone).filter
          fun m => buildScopeKey m.scope == key).filter (beforeOk before)))
    limit

/-! ## FileStore durability loop (`init` / `flush` / `markDirty`) -/

/-- The observable persistence state of a `FileStore`: the in-memory document,
the dirty flag, and the log of documents handed to `writeFile`. -/
structure FileStoreModel where
  state : StoreState
  dirty : Bool
  writes : List StoreState
deriving DecidableEq

/-- `flush()`: `if (!this.dirty) return;` — only a dirty store writes the
current document and clears the flag. -/
def fsFlush (fs : FileStoreModel) : FileStoreModel :=
  if !fs.dirty then fs
  else { fs with writes := fs.writes ++ [fs.state], dirty := false }

/-- `markDirty()`: sets the flag (the ~800 ms flush timer is outside the
per-operation semantics modelled here). -/
def fsMarkDirty (fs : FileStoreModel) : FileStoreModel :=
  { fs with dirty := true }

/-- The pre-seeded `echo` bot of `init`. -/
def echoBot (now : Nat) : BotRecord :=
  { botId := "echo", name := "EchoBot", version := "1.0.0",
    permissions := ["CHANNEL_WRITE"], enabledChannels := [], createdAt := now }

/-- `init()`: `loadResult = some parsed` models a readable, parsable state
file (the spread of `EMPTY_STATE` under `parsed` is `parsed`, since a parsed
document carries every key); `none` models the catch branch taken on a
missing or corrupt file, which resets to the empty state and calls `flush()`.
Afterwards, an empty `botApps` map is seeded with the echo bot and the store
is marked dirty. -/
def fsInit (loadResult : Option StoreState) (now : Nat) : FileStoreModel :=
  let fs : FileStoreModel :=
    match loadResult with
    | some parsed => { state := parsed, dirty := false, writes := [] }
    | none => fsFlush { state := EMPTY_STATE, dirty := false, writes := [] }
  if fs.state.botApps.isEmpty then
    fsMarkDirty { fs with state := { fs.state with botApps := [("echo", echoBot now)] } }
  else fs

/-! ## Connection hub and dispatcher (`app.ts`) -/

/-- `ServerErrorCode`. -/
inductive ErrCode where
  | BAD_REQUEST
  | UNAUTHORIZED
  | ALIAS_IN_USE
  | ALIAS_INVALID
  | CHANNEL_NOT_FOUND
  | FORBIDDEN
  | RATE_LIMIT
  | INTERNAL
deriving DecidableEq

/-- The per-session `LiveClient` state of `app.ts` (`alias` rendered
`aliasName`; the `socket` reference is represented by its id). -/
structure LiveClient where
  socketId : String
  ip : String
  deviceId : Option String := none
  devicePublicKey : Option String := none
  sessionId : Option String := none
  resumeToken : String := ""
  aliasName : Option String := none
  reclaimNonce : Option String := none
  status : String := "online"
  channels : List String := []
  ignoredAliases : List String := []
  messageTimestamps : List Nat := []
  color : String := ""
deriving DecidableEq

/-- The mutable server aggregate: the store plus the `liveClients` and
`aliasToSocketId` maps. -/
structure ServerState where
  store : StoreState := {}
  liveClients : List (String × LiveClient) := []
  aliasToSocketId : List (String × String) := []
deriving DecidableEq

/-- Where an outbound event is sent: a single socket, a `channel:<name>` room,
an `alias:<name>` room, or `io.emit` to everyone. -/
inductive Target where
  | toSocket (socketId : String)
  | channelRoom (channel : String)
  | aliasRoom (aliasName : String)
  | broadcast
deriving DecidableEq

/-- The fields of `channel_event.payload` used by the handlers modelled here. -/
structure ChannelEventPayload where
  aliasName : Option String := none
  role : Option Role := none
  topic : Option String := none
  reason : Option String := none
  targetAlias : Option String := none
deriving DecidableEq

/-- `AliasResultPayload` (`alias` rendered `aliasName`). -/
structure AliasResultPayload where
  ok : Bool
  aliasName : Option String := none
  reclaimNonce : Option String := none
  errorKey : Option String := none
  message : Option String := none
deriving DecidableEq

/-- Outbound events (payloads carry the claim-relevant fields;
`network_snapshot` and `presence_event` payload bodies are not read by any
claim and are elided). -/
inductive OutEvent where
  | serverError (code : ErrCode) (message : String)
  | aliasResult (payload : AliasResultPayload)
  | channelEvent (type : String) (channel : String) (actor : String)
      (payload : ChannelEventPayload)
  | messageEvent (type : String) (scope : MessageScope) (message : MessageRecord)
  | presenceEvent (aliasName : String) (status : String)
  | networkSnapshot
  | historySnapshot (scope : MessageScope) (messages : List MessageRecord)
  | moderationEvent (action : String) (actor : String) (target : String)
      (channel : String)
  | botEvent (botId : String) (channel : String) (output : String)
deriving DecidableEq

/-- One emission: a target room/socket and the event sent to it. -/
abbrev Emit := Target × OutEvent

/-- The result of running one handler: the new server state, the updated
per-session client record (aliased inside `liveClients` in the source; kept
separate here), and the ordered list of emissions. -/
structure HandlerResult where
  server : ServerState
  client : LiveClient
  emits : List Emit
deriving DecidableEq

/-- `emitServerError(socket, code, message)`. -/
def errEmit (c : LiveClient) (code : ErrCode) (message : String) : Emit :=
  (.toSocket c.socketId, .serverError code message)

/-- `emitPresence(alias, status)`: an `io.emit` broadcast (payload body
elided). -/
def emitPresence (aliasName status : String) : Emit :=
  (.broadcast, .presenceEvent aliasName status)

/-- `emitNetworkSnapshot(client)`: only a client with a truthy alias receives
its snapshot (payload body elided). -/
def emitNetworkSnapshot (c : LiveClient) : List Emit :=
  if jsTruthyStr c.aliasName then [(.toSocket c.socketId, .networkSnapshot)] else []

/-- `emitChannelEvent(channel, event)`. -/
def emitChannelEvent (channel type actor : String) (payload : ChannelEventPayload) :
    Emit :=
  (.channelRoom channel, .channelEvent type channel actor payload)

/-- `emitMessageEvent(scope, event)` from `app.ts`: channel scopes go to the
channel room, dm scopes to both participants' alias rooms (nothing when the
conversation is unknown), and anything else is broadcast. -/
def emitMessageEvent (st : StoreState) (scope : MessageScope) (type : String)
    (message : MessageRecord) : List Emit :=
  if scope.kind = ScopeKind.channel ∧ jsTruthyStr scope.channel then
    [(.channelRoom (scope.channel.getD ""), .messageEvent type scope message)]
  else if scope.kind = ScopeKind.dm ∧ jsTruthyStr scope.convoId then
    match getDmConversation st (scope.convoId.getD "") with
    | some convo =>
      [(.aliasRoom convo.aliasA, .messageEvent type scope message),
       (.aliasRoom convo.aliasB, .messageEvent type scope message)]
    | none => []
  else
    [(.broadcast, .messageEvent type scope message)]

/-- Whether a live client is a member of a target room: its own socket, a
channel room it joined, the alias room of the alias it currently owns, or a
broadcast. -/
def inRoom (aliasToSocketId : List (String × String)) (c : LiveClient) :
    Target → Bool
  | .toSocket sid => c.socketId == sid
  | .channelRoom ch => c.channels.contains ch
  | .aliasRoom a => alGet aliasToSocketId a == some c.socketId
  | .broadcast => true

/-- Whether the gateway delivers a `message_event` of the given type for the
given scope to the given session: some emission of `emitMessageEvent` targets
a room the session is in. -/
def deliversTo (sst : ServerState) (scope : MessageScope) (type : String)
    (message : MessageRecord) (c : LiveClient) : Bool :=
  (emitMessageEvent sst.store scope type message).any fun e =>
    inRoom sst.aliasToSocketId c e.1

/-- `canSend(client)`: sliding-window rate limiter; returns the client with
the pruned/updated window and the admit decision. -/
def canSend (c : LiveClient) (now maxCount windowMs : Nat) : LiveClient × Bool :=
  let ts := c.messageTimestamps.filter fun t => now - t ≤ windowMs
  if ts.length ≥ maxCount then ({ c with messageTimestamps := ts }, false)
  else ({ c with messageTimestamps := ts ++ [now] }, true)

/-- `buildMessage(scope, client, kind, body?, encryptedPayload?, extra?)`. -/
def buildMessage (scope : MessageScope) (c : LiveClient) (kind : MessageKind)
    (body : Option String) (encryptedPayload : Option EncryptedDmPayload)
    (replyTo threadId : Option String) (freshId : String) (now : Nat) :
    MessageRecord :=
  { messageId := freshId
    scope := scope
    senderAlias := c.aliasName.getD "unknown"
    senderDeviceId := c.deviceId.getD "unknown-device"
    kind := kind
    body := body
    encryptedPayload := encryptedPayload
    timestamp := now
    replyTo := replyTo
    threadId := threadId
    reactions := []
    deletedAt := none }

/-- `sendSystemMessage(client, body, contextChannel?)`: a NOTICE message
emitted to the originating socket only and never inserted into the store. -/
def sendSystemMessage (c : LiveClient) (body : String)
    (contextChannel : Option String) (freshId : String) (now : Nat) : Emit :=
  let scope : MessageScope :=
    if jsTruthyStr contextChannel then { kind := .channel, channel := contextChannel }
    else { kind := .dm, convoId := some ("system:" ++ c.aliasName.getD "guest") }
  let message : MessageRecord :=
    { messageId := freshId, scope := scope, senderAlias := "system",
      senderDeviceId := "system", kind := .NOTICE, body := some body,
      timestamp := now }
  (.toSocket c.socketId, .messageEvent "CREATED" scope message)

/-- `normalizeRoleForNewChannel(isOwner)`. -/
def normalizeRoleForNewChannel (isOwner : Bool) : Role :=
  if isOwner then .OWNER else .MEMBER

/-- `joinChannel(client, channelInput, actor)` from `app.ts`.  Returns the
handler result and the joined channel name (`null` on refusal). -/
def joinChannel (sst : ServerState) (c : LiveClient) (channelInput : Option String)
    (actor : String) (now : Nat) : HandlerResult × Option String :=
  if !(jsTruthyStr c.aliasName) then
    (⟨sst, c, [errEmit c .UNAUTHORIZED "Claim an alias first."]⟩, none)
  else
    let aliasName := c.aliasName.getD ""
    let normalized := normalizeChannel channelInput
    if !(valOk normalized) then
      (⟨sst, c, [errEmit c .BAD_REQUEST (normalized.error.getD "Invalid channel.")]⟩, none)
    else
      let channel := normalized.value.getD ""
      let existsBefore := channelListed sst.store channel
      let store := ensureChannel sst.store channel aliasName now
      let role := normalizeRoleForNewChannel (!existsBefore)
      let store := upsertMembership store channel aliasName role now
      let c := { c with channels := setAdd c.channels channel }
      let emits :=
        [emitChannelEvent channel (if existsBefore then "JOINED" else "CREATED") actor
            { aliasName := some aliasName, role := some role },
          emitPresence aliasName c.status] ++ emitNetworkSnapshot c
      (⟨{ sst with store := store }, c, emits⟩, some channel)

/-- `partChannel(client, channelInput, reason?)` from `app.ts`. -/
def partChannel (sst : ServerState) (c : LiveClient) (channelInput : Option String)
    (reason : Option String) (_now : Nat) : HandlerResult :=
  if !(jsTruthyStr c.aliasName) then
    ⟨sst, c, [errEmit c .UNAUTHORIZED "Claim an alias first."]⟩
  else
    let aliasName := c.aliasName.getD ""
    let normalized := normalizeChannel channelInput
    if !(valOk normalized) then
      ⟨sst, c, [errEmit c .BAD_REQUEST (normalized.error.getD "Invalid channel.")]⟩
    else
      let channel := normalized.value.getD ""
      let store := partMembership sst.store channel aliasName
      let c := { c with channels := setDel c.channels channel }
      let emits :=
        [emitChannelEvent channel "PARTED" aliasName
            { aliasName := some aliasName, reason := some (reason.getD "") },
          emitPresence aliasName c.status] ++ emitNetworkSnapshot c
      ⟨{ sst with store := store }, c, emits⟩

/-- The `ALIAS_IN_USE` refusal condition of `applyAlias`: another live socket
holds the alias and its IP differs from the claimant's. -/
def aliasInUseBy (sst : ServerState) (c : LiveClient) (aliasName : String) : Bool :=
  match alGet sst.aliasToSocketId aliasName with
  | none => false
  | some sid =>
    if sid = c.socketId then false
    else
      match alGet sst.liveClients sid with
      | none => false
      | some existing => !(existing.ip == c.ip)

/-- The `UNAUTHORIZED` refusal condition of `applyAlias`: the persisted record
has a truthy `activeSessionId` different from the claimant's session, **and**
a truthy `reclaimNonce` was supplied that differs from the record's.  (When no
nonce is supplied, or the record is idle, the guard does not fire.) -/
def reclaimRefused (persisted : Option AliasRecord) (sessionId : Option String)
    (reclaimNonce : Option String) : Bool :=
  match persisted with
  | none => false
  | some p =>
    jsTruthyStr p.activeSessionId && !(p.activeSessionId == sessionId) &&
      jsTruthyStr reclaimNonce && !(reclaimNonce == some p.reclaimNonce)

/-- `applyAlias(client, aliasInput, reclaimNonce?)` from `app.ts`.
`freshNonce` and `freshColor` are the values produced by `randomUUID()` and
`pickDistinctColor`.  The forced disconnect of a same-IP previous holder runs
the `disconnect` handler outside this synchronous step and is not part of the
returned state. -/
def applyAlias (sst : ServerState) (c : LiveClient) (aliasInput : Option String)
    (reclaimNonce : Option String) (freshNonce freshColor : String) (now : Nat) :
    HandlerResult :=
  let normalized := normalizeAlias aliasInput
  if !(valOk normalized) then
    ⟨sst, c, [(.toSocket c.socketId, .aliasResult
      { ok := false, errorKey := some "ALIAS_INVALID",
        message := some (normalized.error.getD "Invalid alias.") })]⟩
  else
    let aliasName := normalized.value.getD ""
    if aliasInUseBy sst c aliasName then
      ⟨sst, c, [(.toSocket c.socketId, .aliasResult
        { ok := false, errorKey := some "ALIAS_IN_USE",
          message := some ("Alias " ++ aliasName ++ " is already in use.") })]⟩
    else if reclaimRefused (getAliasRecord sst.store aliasName) c.sessionId reclaimNonce then
      ⟨sst, c, [(.toSocket c.socketId, .aliasResult
        { ok := false, errorKey := some "UNAUTHORIZED",
          message := some "Invalid reclaim nonce." })]⟩
    else
      let hadOld := jsTruthyStr c.aliasName && !(c.aliasName == some aliasName)
      let oldAlias := c.aliasName.getD ""
      let sst :=
        if hadOld then
          { sst with aliasToSocketId := alDel sst.aliasToSocketId oldAlias,
                     store := storeReleaseAlias sst.store oldAlias }
        else sst
      let releaseEmits := if hadOld then [emitPresence oldAlias "offline"] else []
      let hadAlias := jsTruthyStr c.aliasName
      let c := { c with aliasName := some aliasName, reclaimNonce := some freshNonce,
                        color := freshColor }
      let sst := { sst with aliasToSocketId := alSet sst.aliasToSocketId aliasName c.socketId }
      let sst :=
        if jsTruthyStr c.deviceId && jsTruthyStr c.sessionId then
          let store' := storeClaimAlias sst.store aliasName (c.deviceId.getD "")
            (c.sessionId.getD "") c.ip freshNonce now
          { sst with store := store' }
        else sst
      let resultEmit : Emit := (.toSocket c.socketId, .aliasResult
        { ok := true, aliasName := some aliasName, reclaimNonce := some freshNonce })
      let joined :=
        if !hadAlias then (joinChannel sst c (some "#lobby") aliasName now).1
        else ⟨sst, c, []⟩
      let sst := joined.server
      let c := joined.client
      ⟨sst, c, releaseEmits ++ [resultEmit] ++ joined.emits ++
        [emitPresence aliasName c.status] ++ emitNetworkSnapshot c⟩

/-- `executeCommand`, `case "topic"`: read the topic for a single argument,
otherwise set it — with no role or membership check — and emit
`TOPIC_CHANGED` with the stored topic. -/
def topicCommand (sst : ServerState) (c : LiveClient) (args : List String)
    (contextChannel : Option String) (freshId : String) (now : Nat) :
    HandlerResult :=
  let channel := normalizeChannel (match args.head? with
    | some a => some a
    | none => contextChannel)
  if !(valOk channel) then
    ⟨sst, c, [errEmit c .BAD_REQUEST "Usage: /topic #channel [new topic]"]⟩
  else
    let chV := channel.value.getD ""
    if args.length ≤ 1 then
      ⟨sst, c, [sendSystemMessage c ("Topic " ++ chV ++ ": " ++ getChannelTopic sst.store chV)
        (some chV) freshId now]⟩
    else
      let store := setChannelTopic sst.store chV (String.intercalate " " (args.drop 1))
      ⟨{ sst with store := store }, c,
        [emitChannelEvent chV "TOPIC_CHANGED" (c.aliasName.getD "unknown")
          { topic := some (getChannelTopic store chV) }]⟩

/-- `executeCommand`, `case "msg"`: a plaintext DM — the message is built with
scope `dm` and a `body`, no `encryptedPayload`. -/
def msgCommand (sst : ServerState) (c : LiveClient) (args : List String)
    (freshConvoId freshId : String) (now : Nat) : HandlerResult :=
  let target := args.head?
  let body := String.intercalate " " (args.drop 1)
  if !(jsTruthyStr target) || body = "" then
    ⟨sst, c, [errEmit c .BAD_REQUEST "Usage: /msg <alias> <message>"]⟩
  else if !(jsTruthyStr c.aliasName) then
    ⟨sst, c, [errEmit c .UNAUTHORIZED "Claim an alias first."]⟩
  else
    let pair := getOrCreateDmConversation sst.store (c.aliasName.getD "")
      (target.getD "") now freshConvoId
    let message := buildMessage { kind := .dm, convoId := some pair.2 } c .TEXT
      (some ((normalizeMessage (some body)).value.getD body)) none none none freshId now
    let store := insertMessage pair.1 message
    ⟨{ sst with store := store }, c,
      [(.toSocket c.socketId, .messageEvent "CREATED" message.scope message),
       (.aliasRoom (target.getD ""), .messageEvent "CREATED" message.scope message)]⟩

/-- The four body-building commands `notice` / `me` / `reply` / `thread` of
`executeCommand`. -/
inductive TextCmd where
  | notice
  | me
  | reply
  | thread
deriving DecidableEq

/-- `executeCommand`, cases `"notice" | "me" | "reply" | "thread"`. -/
def textCommand (sst : ServerState) (c : LiveClient) (cmd : TextCmd)
    (args : List String) (contextChannel : Option String) (freshId : String)
    (now : Nat) : HandlerResult :=
  let targetChannel := normalizeChannel (match contextChannel with
    | some cc => some cc
    | none => args.head?)
  if !(valOk targetChannel) then
    ⟨sst, c, [errEmit c .BAD_REQUEST "This command requires an active channel."]⟩
  else
    let chV := targetChannel.value.getD ""
    let body :=
      match cmd with
      | .me => "* " ++ c.aliasName.getD "unknown" ++ " " ++ String.intercalate " " args
      | .reply => String.intercalate " " (args.drop 1)
      | .thread => String.intercalate " " (args.drop 1)
      | .notice => String.intercalate " " args
    let normalizedBody := normalizeMessage (some body)
    if !(valOk normalizedBody) then
      ⟨sst, c, [errEmit c .BAD_REQUEST (normalizedBody.error.getD "Invalid message")]⟩
    else
      let scope : MessageScope :=
        { kind := if cmd = .thread then .thread else .channel
          channel := some chV
          threadId := if cmd = .thread then args.head? else none }
      let kind :=
        match cmd with
        | .notice => MessageKind.NOTICE
        | .me => MessageKind.ACTION
        | _ => MessageKind.TEXT
      let message := buildMessage scope c kind normalizedBody.value none
        (if cmd = .reply then args.head? else none)
        (if cmd = .thread then args.head? else none) freshId now
      let store := insertMessage sst.store message
      let emitScope : MessageScope :=
        if cmd = .thread then { kind := .thread, threadId := args.head? }
        else { kind := .channel, channel := some chV }
      ⟨{ sst with store := store }, c, emitMessageEvent store emitScope "CREATED" message⟩

/-- `executeCommand`, `case "ignore"`: add to the session-local set and
acknowledge; nothing else changes. -/
def ignoreCommand (sst : ServerState) (c : LiveClient) (args : List String)
    (contextChannel : Option String) (freshId : String) (now : Nat) :
    HandlerResult :=
  if !(jsTruthyStr args.head?) then
    ⟨sst, c, [errEmit c .BAD_REQUEST "Usage: /ignore <alias>"]⟩
  else
    let target := (args.head?).getD ""
    let c := { c with ignoredAliases := setAdd c.ignoredAliases target }
    ⟨sst, c, [sendSystemMessage c ("Ignoring " ++ target ++ ".") contextChannel freshId now]⟩

/-- `executeCommand`, `case "unignore"`. -/
def unignoreCommand (sst : ServerState) (c : LiveClient) (args : List String)
    (contextChannel : Option String) (freshId : String) (now : Nat) :
    HandlerResult :=
  if !(jsTruthyStr args.head?) then
    ⟨sst, c, [errEmit c .BAD_REQUEST "Usage: /unignore <alias>"]⟩
  else
    let target := (args.head?).getD ""
    let c := { c with ignoredAliases := setDel c.ignoredAliases target }
    ⟨sst, c, [sendSystemMessage c ("No longer ignoring " ++ target ++ ".") contextChannel freshId now]⟩

/-- The muted check of `send_channel_message`:
`membership.mutedUntil && new Date(membership.mutedUntil).getTime() > Date.now()`. -/
def mutedNow (membership : Option MembershipSummary) (now : Nat) : Bool :=
  match membership with
  | none => false
  | some m =>
    match m.mutedUntil with
    | none => false
    | some t => decide (t > now)

/-- The `send_channel_message` socket handler. -/
def sendChannelMessage (sst : ServerState) (c : LiveClient)
    (payloadChannel payloadBody : Option String) (payloadKind : Option MessageKind)
    (replyTo threadId : Option String) (freshId : String) (now : Nat)
    (maxCount windowMs : Nat) : HandlerResult :=
  if !(jsTruthyStr c.aliasName) then
    ⟨sst, c, [errEmit c .UNAUTHORIZED "Claim an alias first."]⟩
  else
    let sendCheck := canSend c now maxCount windowMs
    let c := sendCheck.1
    if !sendCheck.2 then
      ⟨sst, c, [errEmit c .RATE_LIMIT "Rate limit exceeded."]⟩
    else
      let channel := normalizeChannel payloadChannel
      let message := normalizeMessage payloadBody
      if !(valOk channel) || !(valOk message) then
        ⟨sst, c, [errEmit c .BAD_REQUEST
          ((match channel.error with
            | some e => some e
            | none => message.error).getD "Invalid payload.")]⟩
      else
        let chV := channel.value.getD ""
        let membership := getMembership sst.store chV (c.aliasName.getD "")
        if membership.isNone || (membership.map (fun m => m.isBanned)).getD false then
          ⟨sst, c, [errEmit c .FORBIDDEN "Join the channel first."]⟩
        else if mutedNow membership now then
          ⟨sst, c, [errEmit c .FORBIDDEN "You are muted."]⟩
        else
          let scope : MessageScope :=
            { kind := if jsTruthyStr threadId then .thread else .channel
              channel := some chV
              threadId := threadId }
          let record := buildMessage scope c (payloadKind.getD .TEXT) message.value
            none replyTo threadId freshId now
          let store := insertMessage sst.store record
          let emitScope : MessageScope :=
            if jsTruthyStr threadId then { kind := .thread, threadId := threadId }
            else { kind := .channel, channel := some chV }
          ⟨{ sst with store := store }, c, emitMessageEvent store emitScope "CREATED" record⟩

/-- The `send_dm_message` socket handler: the message carries only
`encryptedPayload` and no `body`. -/
def sendDmMessage (sst : ServerState) (c : LiveClient)
    (targetAliasInput : Option String) (payload : EncryptedDmPayload)
    (freshConvoId freshId : String) (now : Nat) : HandlerResult :=
  if !(jsTruthyStr c.aliasName) || !(jsTruthyStr c.devicePublicKey) then
    ⟨sst, c, [errEmit c .UNAUTHORIZED "Claim alias and initialize device first."]⟩
  else
    let targetAlias := sanitizeText targetAliasInput
    if targetAlias = "" then
      ⟨sst, c, [errEmit c .BAD_REQUEST "Target alias is required."]⟩
    else
      let pair := getOrCreateDmConversation sst.store (c.aliasName.getD "")
        targetAlias now freshConvoId
      let message := buildMessage { kind := .dm, convoId := some pair.2 } c .TEXT
        none (some payload) none none freshId now
      let store := insertMessage pair.1 message
      ⟨{ sst with store := store }, c,
        [(.toSocket c.socketId, .messageEvent "CREATED" message.scope message),
         (.aliasRoom targetAlias, .messageEvent "CREATED" message.scope message)] ++
          emitNetworkSnapshot c⟩

/-- The `message_edit` socket handler: author-only; sets `body` on the stored
record whatever its scope. -/
def messageEditHandler (sst : ServerState) (c : LiveClient) (messageId : String)
    (bodyInput : Option String) : HandlerResult :=
  if !(jsTruthyStr c.aliasName) then
    ⟨sst, c, [errEmit c .UNAUTHORIZED "Claim alias first."]⟩
  else
    let normalized := normalizeMessage bodyInput
    if !(valOk normalized) then
      ⟨sst, c, [errEmit c .BAD_REQUEST (normalized.error.getD "Invalid message.")]⟩
    else
      match findMessage sst.store messageId with
      | none => ⟨sst, c, [errEmit c .FORBIDDEN "Cannot edit this message."]⟩
      | some existing =>
        if !(existing.senderAlias == c.aliasName.getD "") then
          ⟨sst, c, [errEmit c .FORBIDDEN "Cannot edit this message."]⟩
        else
          let pair := editMessage sst.store messageId (normalized.value.getD "")
          match pair.2 with
          | none => ⟨{ sst with store := pair.1 }, c, []⟩
          | some updated =>
            ⟨{ sst with store := pair.1 }, c,
              emitMessageEvent pair.1 updated.scope "EDITED" updated⟩

/-- The clamp of the `history_fetch` handler:
`Math.min(Math.max(payload.limit ?? 50, 1), 200)`. -/
def clampLimit (limit : Option Nat) : Nat :=
  min (max (limit.getD 50) 1) 200

/-- The `history_fetch` socket handler: no authentication, authorization or
membership check of any kind; the snapshot goes to the originating socket
only. -/
def historyFetchHandler (sst : ServerState) (c : LiveClient)
    (scope : MessageScope) (before : Option Nat) (limit : Option Nat) :
    HandlerResult :=
  let clamped := clampLimit limit
  let messages := listHistory sst.store scope clamped before
  ⟨sst, c, [(.toSocket c.socketId, .historySnapshot scope messages)]⟩

/-- `executeCommand` fallback for non-slash input: a channel TEXT message to
`contextChannel ?? Array.from(client.channels)[0]`. -/
def execPlainText (sst : ServerState) (c : LiveClient) (raw : String)
    (contextChannel : Option String) (freshId : String) (now : Nat)
    (maxCount windowMs : Nat) : HandlerResult :=
  let targetChannel := match contextChannel with
    | some cc => some cc
    | none => c.channels.head?
  if !(jsTruthyStr targetChannel) then
    ⟨sst, c, [errEmit c .BAD_REQUEST "Join a channel first."]⟩
  else
    let normalized := normalizeMessage (some raw)
    if !(valOk normalized) then
      ⟨sst, c, [errEmit c .BAD_REQUEST (normalized.error.getD "Invalid message.")]⟩
    else
      let sendCheck := canSend c now maxCount windowMs
      let c := sendCheck.1
      if !sendCheck.2 then
        ⟨sst, c, [errEmit c .RATE_LIMIT "Rate limit exceeded."]⟩
      else
        let message := buildMessage { kind := .channel, channel := targetChannel } c
          .TEXT normalized.value none none none freshId now
        let store := insertMessage sst.store message
        ⟨{ sst with store := store }, c,
          emitMessageEvent store message.scope "CREATED" message⟩

/-- `executeCommand`, `case "bot"`, `"run"` subcase: emits a `bot_event` and
inserts a mirrored NOTICE channel message. -/
def botRunCommand (sst : ServerState) (c : LiveClient) (args : List String)
    (contextChannel : Option String) (freshId : String) (now : Nat) :
    HandlerResult :=
  let botId := args[1]?
  let output := String.intercalate " " (args.drop 2)
  if !(jsTruthyStr botId) then
    ⟨sst, c, [errEmit c .BAD_REQUEST "Usage: /bot run <botId> <command>"]⟩
  else
    let channel := normalizeChannel contextChannel
    if !(valOk channel) then
      ⟨sst, c, [errEmit c .BAD_REQUEST "Bot run requires active channel context."]⟩
    else
      let chV := channel.value.getD ""
      let outText :=
        if output = "" then "Bot(" ++ botId.getD "" ++ ") executed."
        else "Bot(" ++ botId.getD "" ++ "): " ++ output
      let botMessage : MessageRecord :=
        { messageId := freshId
          scope := { kind := .channel, channel := some chV }
          senderAlias := "bot:" ++ botId.getD ""
          senderDeviceId := "bot"
          kind := .NOTICE
          body := some outText
          timestamp := now }
      let store := insertMessage sst.store botMessage
      ⟨{ sst with store := store }, c,
        [(.channelRoom chV, .botEvent (botId.getD "") chV outText)] ++
          emitMessageEvent store { kind := .channel, channel := some chV } "CREATED" botMessage⟩

/-- The round-trip of the spec's idempotence property: `join_channel`, then
`part_channel`, then `join_channel` again, by the same client, at times
`t1`, `t2`, `t3`. -/
def joinPartJoin (sst : ServerState) (c : LiveClient) (input : Option String)
    (actor : String) (t1 t2 t3 : Nat) : HandlerResult :=
  let r1 := (joinChannel sst c input actor t1).1
  let r2 := partChannel r1.server r1.client input none t2
  (joinChannel r2.server r2.client input actor t3).1

/-! ## Specification-side predicates used to state the claims -/

/-- The DM-envelope invariant of the spec: a message has scope kind `dm` iff
it carries an `encryptedPayload` and no `body`. -/
def dmInvariant (m : MessageRecord) : Prop :=
  m.scope.kind = ScopeKind.dm ↔ (m.encryptedPayload.isSome = true ∧ m.body = none)

instance (m : MessageRecord) : Decidable (dmInvariant m) := by
  unfold dmInvariant
  infer_instance

/-- The character class named by the claim about message validation: a C0
control other than TAB, or DEL. -/
def c0ExceptTabOrDel (c : Char) : Prop :=
  (c.toNat < 0x20 ∧ c ≠ '\t') ∨ c.toNat = 0x7F

instance (c : Char) : Decidable (c0ExceptTabOrDel c) := by
  unfold c0ExceptTabOrDel
  infer_instance

/-- Message acceptance exactly as the claim words it: after trimming the
input is non-empty, at most 2000 runes (scalar values) long, and contains no
C0 control other than TAB and no DEL. -/
def claimedMessageOk (s : String) : Prop :=
  jsTrim s ≠ "" ∧ (jsTrim s).data.length ≤ 2000 ∧
    ∀ c ∈ (jsTrim s).data, ¬ c0ExceptTabOrDel c

instance (s : String) : Decidable (claimedMessageOk s) := by
  unfold claimedMessageOk
  infer_instance

/-- The corrected character class: a C0 control other than TAB, LF and CR, or
DEL — exactly what `CONTROL_CHAR_REGEX` matches, stated arithmetically. -/
def c0ExceptTabLfCrOrDel (c : Char) : Prop :=
  (c.toNat < 0x20 ∧ c.toNat ≠ 0x9 ∧ c.toNat ≠ 0xA ∧ c.toNat ≠ 0xD) ∨ c.toNat = 0x7F

instance (c : Char) : Decidable (c0ExceptTabLfCrOrDel c) := by
  unfold c0ExceptTabLfCrOrDel
  infer_instance

/-- Message acceptance as amended: after trimming the input is non-empty, at
most 2000 UTF-16 code units long, and contains no C0 control other than TAB,
LF and CR, and no DEL. -/
def amendedMessageOk (s : String) : Prop :=
  jsTrim s ≠ "" ∧ utf16Len (jsTrim s) ≤ 2000 ∧
    ∀ c ∈ (jsTrim s).data, ¬ c0ExceptTabLfCrOrDel c

/-- The declarative filter of the history claim: a stored message belongs to
the requested scope, is not tombstoned, and lies strictly before the bound
when one is given. -/
def historyMatches (scope : MessageScope) (before : Option Nat)
    (m : MessageRecord) : Prop :=
  buildScopeKey m.scope = buildScopeKey scope ∧ m.deletedAt = none ∧
    ∀ b, before = some b → m.timestamp < b

/-! ## Concrete fixtures for witnesses and counterexamples -/

/-- A DM message between alice and bob as stored by the gateway. -/
def fixDmMessage : MessageRecord :=
  { messageId := "m1"
    scope := { kind := .dm, convoId := some "dm:1" }
    senderAlias := "alice"
    senderDeviceId := "d"
    kind := .TEXT
    encryptedPayload := some { ciphertext := "CT" }
    timestamp := 1 }

/-- A store holding one DM conversation between alice and bob with one
message. -/
def fixDmStore : StoreState :=
  { dmConversations := [("dm:1",
      { convoId := "dm:1", aliasA := "alice", aliasB := "bob", createdAt := 0 })]
    messages := [fixDmMessage] }

/-- A session that has not claimed any alias. -/
def fixGuest : LiveClient :=
  { socketId := "sx", ip := "ipx", aliasName := none }

/-- A channel message fixture with the given id, timestamp and tombstone. -/
def fixChanMessage (mid : String) (ts : Nat) (deletedAt : Option Nat) :
    MessageRecord :=
  { messageId := mid
    scope := { kind := .channel, channel := some "#c" }
    senderAlias := "a"
    senderDeviceId := "d"
    kind := .TEXT
    body := some "x"
    timestamp := ts
    deletedAt := deletedAt }

/-- A store with two live channel messages (out of order) and one tombstoned
message. -/
def fixHistoryStore : StoreState :=
  { messages := [fixChanMessage "1" 3 none, fixChanMessage "2" 1 none,
      fixChanMessage "3" 2 (some 9)] }

/-- A server whose store holds a persisted, currently idle alias record for
"Alpha" owned by device `D1` with reclaim nonce `N1`, and no live session. -/
def fixIdleAliasServer : ServerState :=
  { store := { aliases := [("Alpha",
      { currentDeviceId := "D1", activeSessionId := none, lastIp := "ip1",
        claimedAt := 0, reclaimNonce := "N1" })] } }

/-- A freshly-handshaken session on a different device `D2`. -/
def fixNewDeviceClient : LiveClient :=
  { socketId := "s2", ip := "ip2", deviceId := some "D2", sessionId := some "S2" }

/-- A session that has claimed the alias "alice". -/
def fixAlice : LiveClient :=
  { socketId := "sa", ip := "ipa", aliasName := some "alice" }

/-- The alice session after a device handshake (public key and device id
present), as required by `send_dm_message`. -/
def fixAliceDm : LiveClient :=
  { socketId := "sa", ip := "ipa", aliasName := some "alice",
    deviceId := some "DA", devicePublicKey := some "K" }

/-- The record `/msg bob hi` by alice inserts: DM scope with a plaintext
`body` and no `encryptedPayload`. -/
def fixMsgPlaintextDm : MessageRecord :=
  { messageId := "m1"
    scope := { kind := .dm, convoId := some "c1" }
    senderAlias := "alice"
    senderDeviceId := "unknown-device"
    kind := .TEXT
    body := some "hi"
    timestamp := 5 }

/-- The record `send_dm_message` by alice inserts for target "bob". -/
def fixDmInsertedRecord : MessageRecord :=
  { messageId := "m9"
    scope := { kind := .dm, convoId := some "c9" }
    senderAlias := "alice"
    senderDeviceId := "DA"
    kind := .TEXT
    encryptedPayload := some { ciphertext := "CT" }
    timestamp := 5 }

/-! ## Association-list lemmas -/

theorem alGet_alSet_self {α : Type} (m : List (String × α)) (k : String) (v : α) :
    alGet (alSet m k v) k = some v := by
  induction m with
  | nil => simp [alSet, alGet]
  | cons p rest ih =>
    obtain ⟨k', v'⟩ := p
    by_cases h : k' = k
    · simp [alSet, h, alGet]
    · simp [alSet, h, alGet, ih]

theorem alGet_alSet_ne {α : Type} (m : List (String × α)) (k k' : String) (v : α)
    (h : k' ≠ k) : alGet (alSet m k v) k' = alGet m k' := by
  induction m with
  | nil =>
    simp only [alSet, alGet]
    rw [if_neg (Ne.symm h)]
  | cons p rest ih =>
    obtain ⟨k₀, v₀⟩ := p
    by_cases h0 : k₀ = k
    · subst h0
      simp only [alSet, alGet, if_pos rfl]
      rw [if_neg (Ne.symm h), if_neg (Ne.symm h)]
    · simp only [alSet]
      rw [if_neg h0]
      simp only [alGet]
      by_cases h1 : k₀ = k'
      · rw [if_pos h1, if_pos h1]
      · rw [if_neg h1, if_neg h1, ih]

theorem alGet_eq_none_of_not_mem {α : Type} (m : List (String × α)) (k : String) :
    k ∉ m.map Prod.fst → alGet m k = none := by
  induction m with
  | nil =>
    intro _
    simp [alGet]
  | cons p rest ih =>
    obtain ⟨k', v'⟩ := p
    intro h
    simp only [List.map_cons, List.mem_cons] at h
    push_neg at h
    simp only [alGet]
    rw [if_neg (Ne.symm h.1)]
    exact ih h.2

theorem alGet_alDel_self {α : Type} (m : List (String × α)) (k : String) :
    (m.map Prod.fst).Nodup → alGet (alDel m k) k = none := by
  induction m with
  | nil =>
    intro _
    simp [alDel, alGet]
  | cons p rest ih =>
    obtain ⟨k', v'⟩ := p
    intro h
    simp only [List.map_cons, List.nodup_cons] at h
    by_cases hk : k' = k
    · subst hk
      simp only [alDel, if_pos rfl]
      exact alGet_eq_none_of_not_mem rest k' h.1
    · simp only [alDel]
      rw [if_neg hk]
      simp only [alGet]
      rw [if_neg hk]
      exact ih h.2

theorem mem_keys_alSet {α : Type} (m : List (String × α)) (k x : String) (v : α) :
    x ∈ (alSet m k v).map Prod.fst → x ∈ m.map Prod.fst ∨ x = k := by
  induction m with
  | nil =>
    intro h
    simp only [alSet, List.map_cons, List.map_nil, List.mem_singleton] at h
    exact Or.inr h
  | cons p rest ih =>
    obtain ⟨k', v'⟩ := p
    intro h
    by_cases h0 : k' = k
    · subst h0
      simp only [alSet, if_true, List.map_cons, List.mem_cons] at h
      rcases h with h | h
      · exact Or.inr h
      · exact Or.inl (List.mem_cons_of_mem _ h)
    · rw [alSet, if_neg h0] at h
      simp only [List.map_cons, List.mem_cons] at h
      rcases h with h | h
      · exact Or.inl (List.mem_cons.mpr (Or.inl h))
      · rcases ih h with h1 | h1
        · exact Or.inl (List.mem_cons_of_mem _ h1)
        · exact Or.inr h1

theorem nodup_keys_alSet {α : Type} (m : List (String × α)) (k : String) (v : α) :
    (m.map Prod.fst).Nodup → ((alSet m k v).map Prod.fst).Nodup := by
  induction m with
  | nil =>
    intro _
    simp [alSet]
  | cons p rest ih =>
    obtain ⟨k', v'⟩ := p
    intro h
    simp only [List.map_cons, List.nodup_cons] at h
    by_cases h0 : k' = k
    · subst h0
      rw [alSet, if_pos rfl]
      simp only [List.map_cons, List.nodup_cons]
      exact h
    · rw [alSet, if_neg h0]
      simp only [List.map_cons, List.nodup_cons]
      refine ⟨fun hc => ?_, ih h.2⟩
      rcases mem_keys_alSet rest k k' v hc with hm | hm
      · exact h.1 hm
      · exact h0 hm

theorem alGet_isSome_iff_mem {α : Type} (m : List (String × α)) (k : String) :
    (alGet m k).isSome = true ↔ k ∈ m.map Prod.fst := by
  induction m with
  | nil => simp [alGet]
  | cons p rest ih =>
    obtain ⟨k', v'⟩ := p
    simp only [alGet, List.map_cons, List.mem_cons]
    by_cases h : k' = k
    · subst h
      simp
    · rw [if_neg h, ih]
      constructor
      · intro hm
        exact Or.inr hm
      · intro hm
        rcases hm with hm | hm
        · exact absurd hm.symm h
        · exact hm

theorem channelListed_iff (st : StoreState) (ch : String) :
    channelListed st ch = true ↔ (alGet st.channels ch).isSome = true := by
  rw [alGet_isSome_iff_mem]
  simp [channelListed]

/-! ## Sorting and slicing lemmas -/

theorem mem_insertByTs (m a : MessageRecord) (l : List MessageRecord) :
    a ∈ insertByTs m l ↔ a = m ∨ a ∈ l := by
  induction l with
  | nil => simp [insertByTs]
  | cons x xs ih =>
    by_cases h : m.timestamp ≤ x.timestamp
    · simp [insertByTs, h]
    · simp [insertByTs, h, ih]
      tauto

theorem mem_sortByTs (a : MessageRecord) (l : List MessageRecord) :
    a ∈ sortByTs l ↔ a ∈ l := by
  induction l with
  | nil => simp [sortByTs]
  | cons x xs ih =>
    simp [sortByTs, mem_insertByTs, ih]

theorem pairwise_insertByTs (m : MessageRecord) (l : List MessageRecord)
    (h : l.Pairwise fun a b => a.timestamp ≤ b.timestamp) :
    (insertByTs m l).Pairwise fun a b => a.timestamp ≤ b.timestamp := by
  induction l with
  | nil => simp [insertByTs]
  | cons x xs ih =>
    rcases List.pairwise_cons.mp h with ⟨hx, hxs⟩
    by_cases hle : m.timestamp ≤ x.timestamp
    · rw [insertByTs, if_pos hle]
      refine List.pairwise_cons.mpr ⟨?_, h⟩
      intro b hb
      rcases List.mem_cons.mp hb with hb | hb
      · exact hb ▸ hle
      · exact le_trans hle (hx b hb)
    · rw [insertByTs, if_neg hle]
      refine List.pairwise_cons.mpr ⟨?_, ih hxs⟩
      intro b hb
      rcases (mem_insertByTs m b xs).mp hb with hb | hb
      · exact hb ▸ le_of_not_le hle
      · exact hx b hb

theorem pairwise_sortByTs (l : List MessageRecord) :
    (sortByTs l).Pairwise fun a b => a.timestamp ≤ b.timestamp := by
  induction l with
  | nil => simp [sortByTs]
  | cons x xs ih => exact pairwise_insertByTs x (sortByTs xs) ih

theorem jsTailSlice_suffix {α : Type} (l : List α) (n : Nat) :
    jsTailSlice l n <:+ l := by
  unfold jsTailSlice
  split
  · exact List.suffix_rfl
  · exact List.drop_suffix _ _

theorem length_jsTailSlice_le {α : Type} (l : List α) (n : Nat) (h : n ≠ 0) :
    (jsTailSlice l n).length ≤ n := by
  unfold jsTailSlice
  rw [if_neg h]
  rw [List.length_drop]
  omega

/-! ## Store-operation lemmas -/

theorem ensureChannel_of_isSome (st : StoreState) (ch owner : String) (now : Nat)
    (h : (alGet st.channels ch).isSome = true) :
    ensureChannel st ch owner now = st := by
  unfold ensureChannel
  rw [if_pos h]

theorem channels_upsertMembership (st : StoreState) (ch a : String) (r : Role)
    (now : Nat) : (upsertMembership st ch a r now).channels = st.channels := rfl

theorem channels_partMembership (st : StoreState) (ch a : String) :
    (partMembership st ch a).channels = st.channels := by
  unfold partMembership
  split
  · rfl
  · split
    · rfl
    · rfl

theorem getMemberRow_upsertMembership_self (st : StoreState) (ch a : String)
    (role : Role) (now : Nat) :
    getMemberRow (upsertMembership st ch a role now) ch a =
      some { aliasName := a
             role := role
             joinedAt := ((getMemberRow st ch a).map (fun m => m.joinedAt)).getD now
             mutedUntil := ((getMemberRow st ch a).map (fun m => m.mutedUntil)).getD none
             isBanned := false } := by
  unfold upsertMembership getMemberRow
  simp [alGet_alSet_self]

theorem channelMembers_upsertMembership (st : StoreState) (ch a : String)
    (role : Role) (now : Nat) (members : List (String × ChannelMemberRecord))
    (h : (alGet st.channelMembers ch).getD [] = members) :
    alGet (upsertMembership st ch a role now).channelMembers ch =
      some (alSet members a
        { aliasName := a
          role := role
          joinedAt := ((alGet members a).map (fun m => m.joinedAt)).getD now
          mutedUntil := ((alGet members a).map (fun m => m.mutedUntil)).getD none
          isBanned := false }) := by
  unfold upsertMembership
  simp [alGet_alSet_self, h]

theorem getMemberRow_partMembership_self (st : StoreState) (ch a : String)
    (h : ((((alGet st.channelMembers ch).getD []).map Prod.fst)).Nodup) :
    getMemberRow (partMembership st ch a) ch a = none := by
  unfold partMembership getMemberRow
  cases hm : alGet st.channelMembers ch with
  | none => simp [hm, alGet]
  | some members =>
    rw [hm] at h
    by_cases hg : (alGet members a).isNone
    · simp only [hm, if_pos hg, Option.getD_some]
      simpa [Option.isNone_iff_eq_none] using hg
    · simp only [hm, if_neg hg]
      simp only [alGet_alSet_self, Option.getD_some]
      exact alGet_alDel_self members a (by simpa using h)

theorem getChannelTopic_setChannelTopic (st : StoreState) (ch t : String)
    (rec : ChannelRecord) (h : alGet st.channels ch = some rec) :
    getChannelTopic (setChannelTopic st ch t) ch = t := by
  unfold setChannelTopic
  rw [h]
  unfold getChannelTopic
  simp [alGet_alSet_self]

theorem messages_getOrCreateDm (st : StoreState) (a b : String) (now : Nat)
    (f : String) : (getOrCreateDmConversation st a b now f).1.messages = st.messages := by
  unfold getOrCreateDmConversation
  dsimp only
  split
  · rfl
  · rfl

theorem mem_replaceFirst_of_find (p : MessageRecord → Bool)
    (f : MessageRecord → MessageRecord) (l : List MessageRecord)
    (m0 : MessageRecord) (hf : l.find? p = some m0) :
    ∀ m' ∈ replaceFirst p f l, m' ∈ l ∨ m' = f m0 := by
  induction l with
  | nil => simp [List.find?] at hf
  | cons x rest ih =>
    intro m' hm'
    by_cases hp : p x
    · rw [List.find?_cons_of_pos _ hp] at hf
      rw [replaceFirst, if_pos hp] at hm'
      rcases List.mem_cons.mp hm' with h | h
      · right
        rw [h, Option.some_inj.mp hf]
      · exact Or.inl (List.mem_cons_of_mem _ h)
    · rw [List.find?_cons_of_neg _ hp] at hf
      rw [replaceFirst, if_neg hp] at hm'
      rcases List.mem_cons.mp hm' with h | h
      · exact Or.inl (by simp [h])
      · rcases ih hf m' h with h' | h'
        · exact Or.inl (List.mem_cons_of_mem _ h')
        · exact Or.inr h'

theorem mem_listHistory (st : StoreState) (scope : MessageScope) (limit : Nat)
    (before : Option Nat) (m : MessageRecord)
    (h : m ∈ listHistory st scope limit before) :
    m ∈ st.messages ∧ m.deletedAt = none ∧
      buildScopeKey m.scope = buildScopeKey scope ∧ beforeOk before m = true := by
  unfold listHistory at h
  have h1 := (jsTailSlice_suffix _ limit).sublist.mem h
  have h2 := (mem_sortByTs m _).mp h1
  have h3 := List.mem_filter.mp h2
  have h4 := List.mem_filter.mp h3.1
  have h5 := List.mem_filter.mp h4.1
  refine ⟨h5.1, ?_, ?_, h3.2⟩
  · simpa [Option.isNone_iff_eq_none] using h5.2
  · simpa using h4.2

/-! ## Handler-reduction lemmas -/

theorem jsTruthyStr_some_ne (s : String) (h : s ≠ "") :
    jsTruthyStr (some s) = true := by
  simp [jsTruthyStr, h]

theorem valOk_of_success (r : ValidationResult) (v : String)
    (hr : r = { ok := true, value := some v }) (hv : v ≠ "") : valOk r = true := by
  subst hr
  simp [valOk, jsTruthyStr_some_ne v hv]

theorem joinChannel_reduce (sst : ServerState) (c : LiveClient)
    (input : Option String) (actor a chanVal : String) (now : Nat)
    (hA : c.aliasName = some a) (hA' : a ≠ "")
    (hC : normalizeChannel input = { ok := true, value := some chanVal })
    (hCV : chanVal ≠ "")
    (hEx : (alGet sst.store.channels chanVal).isSome = true) :
    (joinChannel sst c input actor now).1.server.store =
      upsertMembership sst.store chanVal a Role.MEMBER now ∧
    (joinChannel sst c input actor now).1.client =
      { c with channels := setAdd c.channels chanVal } := by
  have hT : jsTruthyStr c.aliasName = true := by
    rw [hA]
    exact jsTruthyStr_some_ne a hA'
  have hV : valOk (normalizeChannel input) = true := valOk_of_success _ chanVal hC hCV
  have hL : channelListed sst.store chanVal = true := (channelListed_iff _ _).mpr hEx
  unfold joinChannel
  rw [hT, hC] at *
  simp only [hC, Bool.not_true, Bool.false_eq_true, if_false]
  rw [valOk_of_success _ chanVal rfl hCV]
  simp only [Bool.not_true, Bool.false_eq_true, if_false, Option.getD_some, hA, hL,
    if_true, normalizeRoleForNewChannel]
  rw [ensureChannel_of_isSome sst.store chanVal a now hEx]
  exact ⟨rfl, trivial⟩

theorem partChannel_reduce (sst : ServerState) (c : LiveClient)
    (input : Option String) (reason : Option String) (a chanVal : String) (now : Nat)
    (hA : c.aliasName = some a) (hA' : a ≠ "")
    (hC : normalizeChannel input = { ok := true, value := some chanVal })
    (hCV : chanVal ≠ "") :
    (partChannel sst c input reason now).server.store =
      partMembership sst.store chanVal a ∧
    (partChannel sst c input reason now).client =
      { c with channels := setDel c.channels chanVal } := by
  have hT : jsTruthyStr c.aliasName = true := by
    rw [hA]
    exact jsTruthyStr_some_ne a hA'
  unfold partChannel
  rw [hT, hC]
  simp only [Bool.not_true, Bool.false_eq_true, if_false]
  rw [valOk_of_success _ chanVal rfl hCV]
  simp only [Bool.not_true, Bool.false_eq_true, if_false, Option.getD_some, hA]
  exact ⟨trivial, trivial⟩

/-! ## Claim theorems -/

/-- C3 counterexample: with an existing row `{role := OP, joinedAt := 1,
mutedUntil := some 99, isBanned := true}`, a `join_channel` produces
`{MEMBER, joinedAt := 1, mutedUntil := some 99, isBanned := false}` — the
`mutedUntil` field is preserved, not reset, so the row is **not** the one the
claim predicts (which keeps only `joinedAt` and defaults the rest). -/
theorem C3_cx_mutedUntil_preserved :
    getMemberRow (joinChannel
        { store :=
          { channels := [("#c",
              { channelId := "#c:0", name := "#c", topic := "", modes := [],
                ownerAlias := "root", createdAt := 0 })]
            channelMembers := [("#c", [("alice",
              { aliasName := "alice", role := .OP, joinedAt := 1,
                mutedUntil := some 99, isBanned := true })])] } }
        { socketId := "sa", ip := "ipa", aliasName := some "alice" }
        (some "#c") "alice" 7).1.server.store "#c" "alice" =
      some { aliasName := "alice", role := .MEMBER, joinedAt := 1,
             mutedUntil := some 99, isBanned := false } ∧
    getMemberRow (joinChannel
        { store :=
          { channels := [("#c",
              { channelId := "#c:0", name := "#c", topic := "", modes := [],
                ownerAlias := "root", createdAt := 0 })]
            channelMembers := [("#c", [("alice",
              { aliasName := "alice", role := .OP, joinedAt := 1,
                mutedUntil := some 99, isBanned := true })])] } }
        { socketId := "sa", ip := "ipa", aliasName := some "alice" }
        (some "#c") "alice" 7).1.server.store "#c" "alice" ≠
      some { aliasName := "alice", role := .MEMBER, joinedAt := 1,
             mutedUntil := none, isBanned := false } := by
  exact ⟨by decide, by decide⟩

/-- C3 (amended): for an alias with a truthy name joining an existing channel,
`join_channel` overwrites the membership row with role MEMBER and
`isBanned := false`, preserving `joinedAt` **and** `mutedUntil`; in
particular a banned member clears its own ban by re-joining and an
OP/ADMIN/OWNER is demoted to MEMBER. -/
theorem C3_join_overwrites_membership (sst : ServerState) (c : LiveClient)
    (input : Option String) (actor a chanVal : String) (now : Nat)
    (m0 : ChannelMemberRecord)
    (hA : c.aliasName = some a) (hA' : a ≠ "")
    (hC : normalizeChannel input = { ok := true, value := some chanVal })
    (hCV : chanVal ≠ "")
    (hEx : (alGet sst.store.channels chanVal).isSome = true)
    (hRow : getMemberRow sst.store chanVal a = some m0) :
    getMemberRow (joinChannel sst c input actor now).1.server.store chanVal a =
      some { aliasName := a, role := Role.MEMBER, joinedAt := m0.joinedAt,
             mutedUntil := m0.mutedUntil, isBanned := false } := by
  rw [(joinChannel_reduce sst c input actor a chanVal now hA hA' hC hCV hEx).1]
  rw [getMemberRow_upsertMembership_self, hRow]
  rfl

/-- C3 witness: the amended statement evaluated at a concrete state. -/
theorem C3_join_overwrites_membership_witness :
    getMemberRow (joinChannel
        { store :=
          { channels := [("#c",
              { channelId := "#c:0", name := "#c", topic := "", modes := [],
                ownerAlias := "root", createdAt := 0 })]
            channelMembers := [("#c", [("alice",
              { aliasName := "alice", role := .OWNER, joinedAt := 1,
                mutedUntil := none, isBanned := true })])] } }
        { socketId := "sa", ip := "ipa", aliasName := some "alice" }
        (some "#c") "alice" 7).1.server.store "#c" "alice" =
      some { aliasName := "alice", role := Role.MEMBER, joinedAt := 1,
             mutedUntil := none, isBanned := false } := by
  exact C3_join_overwrites_membership _ _ _ _ "alice" "#c" 7
    { aliasName := "alice", role := .OWNER, joinedAt := 1, mutedUntil := none,
      isBanned := true }
    rfl (by decide) (by decide) (by decide) (by decide) (by decide)

/-- C10: for a non-creator alias and an existing channel, `join_channel` then
`part_channel` then `join_channel` leaves the membership row with the later
`joinedAt` (`t3`) and the default MEMBER role (fresh defaults for the
moderation fields). -/
theorem C10_join_part_join (sst : ServerState) (c : LiveClient)
    (input : Option String) (actor a chanVal : String) (chanRec : ChannelRecord)
    (t1 t2 t3 : Nat)
    (hA : c.aliasName = some a) (hA' : a ≠ "")
    (hC : normalizeChannel input = { ok := true, value := some chanVal })
    (hCV : chanVal ≠ "")
    (hRec : alGet sst.store.channels chanVal = some chanRec)
    (_hNC : chanRec.ownerAlias ≠ a)
    (_hT1 : t1 < t2) (_hT2 : t2 < t3)
    (hND : (((alGet sst.store.channelMembers chanVal).getD []).map Prod.fst).Nodup) :
    getMemberRow (joinPartJoin sst c input actor t1 t2 t3).server.store chanVal a =
      some { aliasName := a, role := Role.MEMBER, joinedAt := t3,
             mutedUntil := none, isBanned := false } := by
  have hEx : (alGet sst.store.channels chanVal).isSome = true := by
    rw [hRec]
    rfl
  obtain ⟨hs1, hc1⟩ := joinChannel_reduce sst c input actor a chanVal t1 hA hA' hC hCV hEx
  have hA1 : (joinChannel sst c input actor t1).1.client.aliasName = some a := by
    rw [hc1]
    exact hA
  obtain ⟨hs2, hc2⟩ := partChannel_reduce (joinChannel sst c input actor t1).1.server
    (joinChannel sst c input actor t1).1.client input none a chanVal t2 hA1 hA'
    hC hCV
  have hA2 : (partChannel (joinChannel sst c input actor t1).1.server
      (joinChannel sst c input actor t1).1.client input none t2).client.aliasName =
      some a := by
    rw [hc2, hc1]
    exact hA
  have hchan2 : (alGet (partChannel (joinChannel sst c input actor t1).1.server
      (joinChannel sst c input actor t1).1.client input none t2).server.store.channels
      chanVal).isSome = true := by
    rw [hs2, channels_partMembership, hs1, channels_upsertMembership, hRec]
    rfl
  obtain ⟨hs3, _⟩ := joinChannel_reduce _ _ input actor a chanVal t3 hA2 hA' hC hCV hchan2
  have hnone : getMemberRow (partChannel (joinChannel sst c input actor t1).1.server
      (joinChannel sst c input actor t1).1.client input none t2).server.store
      chanVal a = none := by
    rw [hs2]
    apply getMemberRow_partMembership_self
    rw [hs1]
    rw [channelMembers_upsertMembership sst.store chanVal a Role.MEMBER t1 _ rfl]
    simp only [Option.getD_some]
    exact nodup_keys_alSet _ a _ hND
  show getMemberRow (joinChannel (partChannel (joinChannel sst c input actor t1).1.server
      (joinChannel sst c input actor t1).1.client input none t2).server
      (partChannel (joinChannel sst c input actor t1).1.server
        (joinChannel sst c input actor t1).1.client input none t2).client
      input actor t3).1.server.store chanVal a = _
  rw [hs3, getMemberRow_upsertMembership_self, hnone]
  rfl

/-- C10 witness: the round trip evaluated at a concrete state. -/
theorem C10_join_part_join_witness :
    getMemberRow (joinPartJoin
        { store :=
          { channels := [("#c",
              { channelId := "#c:0", name := "#c", topic := "", modes := [],
                ownerAlias := "root", createdAt := 0 })] } }
        { socketId := "sa", ip := "ipa", aliasName := some "alice" }
        (some "#c") "alice" 1 2 3).server.store "#c" "alice" =
      some { aliasName := "alice", role := Role.MEMBER, joinedAt := 3,
             mutedUntil := none, isBanned := false } := by
  exact C10_join_part_join _ _ _ _ "alice" "#c"
    { channelId := "#c:0", name := "#c", topic := "", modes := [],
      ownerAlias := "root", createdAt := 0 } 1 2 3
    rfl (by decide) (by decide) (by decide) (by decide) (by decide)
    (by decide) (by decide) (by decide)

/-- C4 counterexample: an actor holding only MEMBER in `#c` issues
`/topic #c new`; the topic **is** changed and a `TOPIC_CHANGED` event is
emitted — no `server_error`, contradicting the claimed OP requirement. -/
theorem C4_cx_member_sets_topic :
    getChannelTopic (topicCommand
        { store :=
          { channels := [("#c",
              { channelId := "#c:0", name := "#c", topic := "old", modes := [],
                ownerAlias := "root", createdAt := 0 })]
            channelMembers := [("#c", [("mallory",
              { aliasName := "mallory", role := .MEMBER, joinedAt := 0,
                mutedUntil := none, isBanned := false })])] } }
        { socketId := "sm", ip := "ipm", aliasName := some "mallory" }
        ["#c", "new"] none "f1" 9).server.store "#c" = "new" ∧
    (topicCommand
        { store :=
          { channels := [("#c",
              { channelId := "#c:0", name := "#c", topic := "old", modes := [],
                ownerAlias := "root", createdAt := 0 })]
            channelMembers := [("#c", [("mallory",
              { aliasName := "mallory", role := .MEMBER, joinedAt := 0,
                mutedUntil := none, isBanned := false })])] } }
        { socketId := "sm", ip := "ipm", aliasName := some "mallory" }
        ["#c", "new"] none "f1" 9).emits =
      [(Target.channelRoom "#c", OutEvent.channelEvent "TOPIC_CHANGED" "#c" "mallory"
        { topic := some "new" })] := by
  exact ⟨by decide, by decide⟩

/-- C4 (amended): setting a topic via `/topic #c <text>` performs **no** role
or membership check: for any client and any server state, once the channel
argument normalizes to an existing channel, the topic is stored and a
`TOPIC_CHANGED` channel event carrying the new topic is emitted to the
channel room. -/
theorem C4_topic_set_no_role_check (sst : ServerState) (c : LiveClient)
    (a0 : String) (args' : List String) (chanVal : String) (rec : ChannelRecord)
    (contextChannel : Option String) (freshId : String) (now : Nat)
    (hArgs : args' ≠ [])
    (hC : normalizeChannel (some a0) = { ok := true, value := some chanVal })
    (hCV : chanVal ≠ "")
    (hRec : alGet sst.store.channels chanVal = some rec) :
    (topicCommand sst c (a0 :: args') contextChannel freshId now).server.store =
      setChannelTopic sst.store chanVal (String.intercalate " " args') ∧
    getChannelTopic
        (topicCommand sst c (a0 :: args') contextChannel freshId now).server.store
        chanVal =
      String.intercalate " " args' ∧
    (topicCommand sst c (a0 :: args') contextChannel freshId now).emits =
      [(Target.channelRoom chanVal, OutEvent.channelEvent "TOPIC_CHANGED" chanVal
        (c.aliasName.getD "unknown")
        { topic := some (String.intercalate " " args') })] := by
  have hlen : ¬((a0 :: args').length ≤ 1) := by
    cases args' with
    | nil => exact absurd rfl hArgs
    | cons x xs => simp
  unfold topicCommand
  simp only [List.head?]
  rw [hC]
  rw [valOk_of_success _ chanVal rfl hCV]
  simp only [Bool.not_true, Bool.false_eq_true, if_false, Option.getD_some]
  rw [if_neg hlen]
  simp only [List.drop_succ_cons, List.drop_zero]
  refine ⟨trivial, ?_, ?_⟩
  · exact getChannelTopic_setChannelTopic sst.store chanVal _ rec hRec
  · show [emitChannelEvent chanVal "TOPIC_CHANGED" (c.aliasName.getD "unknown")
      { topic := some (getChannelTopic
          (setChannelTopic sst.store chanVal (String.intercalate " " args'))
          chanVal) }] = _
    rw [getChannelTopic_setChannelTopic sst.store chanVal _ rec hRec]
    rfl

/-- C4 witness: the amended statement evaluated at a concrete state. -/
theorem C4_topic_set_no_role_check_witness :
    getChannelTopic (topicCommand
        { store :=
          { channels := [("#c",
              { channelId := "#c:0", name := "#c", topic := "old", modes := [],
                ownerAlias := "root", createdAt := 0 })] } }
        { socketId := "sq", ip := "ipq", aliasName := none }
        ["#c", "brand", "new"] none "f2" 11).server.store "#c" = "brand new" := by
  exact (C4_topic_set_no_role_check _ _ "#c" ["brand", "new"] "#c"
    { channelId := "#c:0", name := "#c", topic := "old", modes := [],
      ownerAlias := "root", createdAt := 0 }
    none "f2" 11 (by decide) (by decide) (by decide) (by decide)).2.1

theorem inRoom_ignoredAliases (m : List (String × String)) (c : LiveClient)
    (ignored : List String) (t : Target) :
    inRoom m { c with ignoredAliases := ignored } t = inRoom m c t := by
  cases t <;> rfl

/-- C5 counterexample: a session whose `ignoredAliases` contains the sender
("alice") and which sits in the `#lobby` room **does** receive the
`message_event CREATED` — the gateway never consults `ignoredAliases`. -/
theorem C5_cx_ignored_sender_still_delivered :
    deliversTo { } { kind := .channel, channel := some "#lobby" } "CREATED"
        { messageId := "m", scope := { kind := .channel, channel := some "#lobby" },
          senderAlias := "alice", senderDeviceId := "d", kind := .TEXT,
          body := some "hi", timestamp := 1 }
        { socketId := "sb", ip := "ipb", aliasName := some "bob",
          channels := ["#lobby"], ignoredAliases := ["alice"] } = true ∧
    ({ socketId := "sb", ip := "ipb", aliasName := some "bob",
       channels := ["#lobby"], ignoredAliases := ["alice"] } :
        LiveClient).ignoredAliases.contains "alice" = true := by
  exact ⟨by decide, by decide⟩

/-- C5 (amended): the gateway maintains the session-local `ignoredAliases`
set via `/ignore` and `/unignore`, but outbound delivery is completely
independent of it: changing a session's `ignoredAliases` (in particular by
running `/ignore`) never changes which `message_event`s of any type the
session receives, and `/ignore` leaves the server state untouched. -/
theorem C5_ignore_not_filtered :
    (∀ (sst : ServerState) (scope : MessageScope) (type : String)
        (msg : MessageRecord) (c : LiveClient) (ignored : List String),
      deliversTo sst scope type msg { c with ignoredAliases := ignored } =
        deliversTo sst scope type msg c) ∧
    (∀ (sst : ServerState) (c : LiveClient) (args : List String)
        (contextChannel : Option String) (freshId : String) (now : Nat),
      (ignoreCommand sst c args contextChannel freshId now).server = sst ∧
      ∀ (scope : MessageScope) (type : String) (msg : MessageRecord),
        deliversTo sst scope type msg
            (ignoreCommand sst c args contextChannel freshId now).client =
          deliversTo sst scope type msg c) := by
  have hmain : ∀ (sst : ServerState) (scope : MessageScope) (type : String)
      (msg : MessageRecord) (c : LiveClient) (ignored : List String),
      deliversTo sst scope type msg { c with ignoredAliases := ignored } =
        deliversTo sst scope type msg c := by
    intro sst scope type msg c ignored
    unfold deliversTo
    simp only [inRoom_ignoredAliases]
  refine ⟨hmain, ?_⟩
  intro sst c args contextChannel freshId now
  constructor
  · unfold ignoreCommand
    split
    · rfl
    · rfl
  · intro scope type msg
    unfold ignoreCommand
    split
    · rfl
    · exact hmain sst scope type msg c _

/-- C6: the `history_fetch` handler performs no authentication, membership or
scope-ownership check and never emits a `server_error`: for **every** server
state, session and requested scope (including a DM scope owned by two other
aliases) it emits exactly one `history_snapshot` to the originator with that
scope's non-deleted messages, leaving all state unchanged. -/
theorem C6_history_fetch_no_auth (sst : ServerState) (c : LiveClient)
    (scope : MessageScope) (before limit : Option Nat) :
    (historyFetchHandler sst c scope before limit).emits =
      [(Target.toSocket c.socketId, OutEvent.historySnapshot scope
        (listHistory sst.store scope (clampLimit limit) before))] ∧
    (historyFetchHandler sst c scope before limit).server = sst ∧
    (historyFetchHandler sst c scope before limit).client = c ∧
    ∀ m ∈ listHistory sst.store scope (clampLimit limit) before,
      m.deletedAt = none ∧ buildScopeKey m.scope = buildScopeKey scope := by
  refine ⟨rfl, rfl, rfl, ?_⟩
  intro m hm
  have h := mem_listHistory sst.store scope (clampLimit limit) before m hm
  exact ⟨h.2.1, h.2.2.1⟩

/-- C6 witness: a session with no alias fetches the DM history of a
conversation between two other aliases and receives the snapshot. -/
theorem C6_history_fetch_no_auth_witness :
    (historyFetchHandler { store := fixDmStore } fixGuest
        { kind := .dm, convoId := some "dm:1" } none none).emits =
      [(Target.toSocket "sx", OutEvent.historySnapshot
        { kind := .dm, convoId := some "dm:1" } [fixDmMessage])] ∧
    fixDmMessage.deletedAt = none := by
  refine ⟨?_, ?_⟩
  · have h := (C6_history_fetch_no_auth { store := fixDmStore } fixGuest
      { kind := .dm, convoId := some "dm:1" } none none).1
    rw [h]
    decide
  · have h := (C6_history_fetch_no_auth { store := fixDmStore } fixGuest
      { kind := .dm, convoId := some "dm:1" } none none).2.2.2
      fixDmMessage (by decide)
    exact h.1

/-- C7: on a missing or unparsable state file, `init()` resets to the empty
state and calls `flush()` — but the dirty flag is still `false` at that
point, so `flush()` returns without writing: **no** document reaches disk
during `init` (the echo-bot seeding afterwards only marks the store dirty
for the ~800 ms write-behind timer). -/
theorem C7_init_corrupt_writes_nothing :
    (fsInit none 7).writes = [] ∧ (fsInit none 7).dirty = true ∧
    (fsInit none 7).state = { EMPTY_STATE with botApps := [("echo", echoBot 7)] } := by
  exact ⟨rfl, rfl, rfl⟩

theorem listHistory_eq (st : StoreState) (scope : MessageScope) (limit : Nat)
    (before : Option Nat) :
    listHistory st scope limit before =
      jsTailSlice (sortByTs (((st.messages.filter fun m => m.deletedAt.isNone).filter
        fun m => buildScopeKey m.scope == buildScopeKey scope).filter
          (beforeOk before))) limit := rfl

/-- C8: `history_fetch` clamps the limit into `[1, 200]` (50 when absent, so
0 clamps to 1 and 999 to 200), answers the originator only with a
`history_snapshot`, and the snapshot's messages are exactly the stored
messages of the requested scope key, non-deleted, strictly before the bound,
sorted ascending by timestamp, and tail-sliced to the clamped limit. -/
theorem C8_history_clamp_and_contents (sst : ServerState) (c : LiveClient)
    (scope : MessageScope) (before : Option Nat) (limit : Option Nat) :
    clampLimit none = 50 ∧ clampLimit (some 0) = 1 ∧ clampLimit (some 999) = 200 ∧
    1 ≤ clampLimit limit ∧ clampLimit limit ≤ 200 ∧
    (historyFetchHandler sst c scope before limit).emits =
      [(Target.toSocket c.socketId, OutEvent.historySnapshot scope
        (listHistory sst.store scope (clampLimit limit) before))] ∧
    (∀ m ∈ listHistory sst.store scope (clampLimit limit) before,
      m ∈ sst.store.messages ∧ historyMatches scope before m) ∧
    (listHistory sst.store scope (clampLimit limit) before).Pairwise
      (fun a b => a.timestamp ≤ b.timestamp) ∧
    (listHistory sst.store scope (clampLimit limit) before).length ≤ clampLimit limit ∧
    listHistory sst.store scope (clampLimit limit) before <:+
      sortByTs (((sst.store.messages.filter fun m => m.deletedAt.isNone).filter
        fun m => buildScopeKey m.scope == buildScopeKey scope).filter
          (beforeOk before)) := by
  have hclamp : 1 ≤ clampLimit limit ∧ clampLimit limit ≤ 200 := by
    unfold clampLimit
    omega
  refine ⟨by decide, by decide, by decide, hclamp.1, hclamp.2, rfl, ?_, ?_, ?_, ?_⟩
  · intro m hm
    have h := mem_listHistory sst.store scope (clampLimit limit) before m hm
    refine ⟨h.1, h.2.2.1, h.2.1, ?_⟩
    intro b hb
    have hbo := h.2.2.2
    rw [hb] at hbo
    simpa [beforeOk] using hbo
  · rw [listHistory_eq]
    exact (pairwise_sortByTs _).sublist (jsTailSlice_suffix _ _).sublist
  · rw [listHistory_eq]
    exact length_jsTailSlice_le _ _ (by omega)
  · rw [listHistory_eq]
    exact jsTailSlice_suffix _ _

/-- C8 witness: the contract evaluated at a concrete store (two live channel
messages out of order and a tombstoned one; `limit := 999` clamps to 200). -/
theorem C8_history_clamp_and_contents_witness :
    (historyFetchHandler { store := fixHistoryStore } fixGuest
        { kind := .channel, channel := some "#c" } none (some 999)).emits =
      [(Target.toSocket "sx", OutEvent.historySnapshot
        { kind := .channel, channel := some "#c" }
        (listHistory fixHistoryStore { kind := .channel, channel := some "#c" }
          200 none))] ∧
    listHistory fixHistoryStore { kind := .channel, channel := some "#c" } 200 none =
      [fixChanMessage "2" 1 none, fixChanMessage "1" 3 none] := by
  refine ⟨?_, by decide⟩
  have h := (C8_history_clamp_and_contents { store := fixHistoryStore } fixGuest
    { kind := .channel, channel := some "#c" } none (some 999)).2.2.2.2.2.1
  rw [h]
  decide

/-- C1: evidence for the code bug — the persisted record for "Alpha" is idle
(`activeSessionId = null`) and owned by device `D1` with nonce `N1`, yet a
`claim_alias` from device `D2` carrying **no** reclaim nonce succeeds: the
first emission is `alias_result ok` and the record is overwritten with `D2`'s
identity and a rotated nonce.  The `UNAUTHORIZED` guard of `applyAlias` only
fires when `activeSessionId` is non-null **and** a wrong nonce is supplied,
so the spec's required refusal never happens. -/
theorem C1_idle_alias_takeover_without_nonce :
    (applyAlias fixIdleAliasServer fixNewDeviceClient (some "Alpha") none
        "N2" "col" 5).emits.head? =
      some (Target.toSocket "s2", OutEvent.aliasResult
        { ok := true, aliasName := some "Alpha", reclaimNonce := some "N2" }) ∧
    getAliasRecord (applyAlias fixIdleAliasServer fixNewDeviceClient (some "Alpha")
        none "N2" "col" 5).server.store "Alpha" =
      some { currentDeviceId := "D2", activeSessionId := some "S2", lastIp := "ip2",
             claimedAt := 5, reclaimNonce := "N2" } ∧
    reclaimRefused (getAliasRecord fixIdleAliasServer.store "Alpha")
        fixNewDeviceClient.sessionId none = false := by
  exact ⟨by decide, by decide, by decide⟩

/-- C9 counterexample: the input string with an embedded line feed is
**accepted** by `normalizeMessage` (its regex exempts LF and CR along with
TAB), while the claim's predicate — no C0 control other than TAB — rejects
it. -/
theorem C9_cx_linefeed_accepted :
    (normalizeMessage (some "a\nb")).ok = true ∧ ¬ claimedMessageOk "a\nb" := by
  exact ⟨by decide, by decide⟩

theorem isDisallowedControl_iff (c : Char) :
    isDisallowedControl c = true ↔ c0ExceptTabLfCrOrDel c := by
  unfold isDisallowedControl c0ExceptTabLfCrOrDel
  simp only [Bool.or_eq_true, Bool.and_eq_true, decide_eq_true_eq, beq_iff_eq]
  omega

theorem hasDisallowedControlChars_iff (s : String) :
    hasDisallowedControlChars s = true ↔ ∃ c ∈ s.data, c0ExceptTabLfCrOrDel c := by
  unfold hasDisallowedControlChars
  rw [List.any_eq_true]
  simp only [isDisallowedControl_iff]

theorem normalizeMessage_ok_iff (s : String) :
    (normalizeMessage (some s)).ok = true ↔ amendedMessageOk s := by
  unfold normalizeMessage amendedMessageOk sanitizeText
  by_cases h1 : jsTrim s = ""
  · simp [h1]
  · rw [if_neg h1]
    by_cases h2 : utf16Len (jsTrim s) > MAX_MESSAGE_LENGTH
    · rw [if_pos h2]
      unfold MAX_MESSAGE_LENGTH at h2
      constructor
      · intro h
        simp at h
      · intro h
        exfalso
        have := h.2.1
        omega
    · rw [if_neg h2]
      by_cases h3 : hasDisallowedControlChars (jsTrim s) = true
      · rw [if_pos h3]
        constructor
        · intro h
          simp at h
        · intro h
          exfalso
          obtain ⟨cch, hc1, hc2⟩ := (hasDisallowedControlChars_iff _).mp h3
          exact (h.2.2 cch hc1) hc2
      · rw [if_neg h3]
        unfold MAX_MESSAGE_LENGTH at h2
        constructor
        · intro _
          refine ⟨h1, by omega, ?_⟩
          intro cch hc hcd
          exact h3 ((hasDisallowedControlChars_iff _).mpr ⟨cch, hc, hcd⟩)
        · intro _
          rfl

/-- C9 (amended): `normalizeMessage` accepts an input iff, after trimming, it
is non-empty, at most 2000 UTF-16 code units long, and contains no C0 control
character other than TAB, **LF and CR**, and no DEL; a body of exactly 2000
such units is accepted and one of 2001 is rejected. -/
theorem dropWhile_ws_replicate_a (n : Nat) :
    List.dropWhile jsWhitespaceChar (List.replicate n 'a') =
      List.replicate n 'a' := by
  cases n with
  | zero => rfl
  | succ k =>
    rw [List.replicate_succ, List.dropWhile_cons]
    simp [show jsWhitespaceChar 'a' = false by decide]

theorem jsTrim_replicate_a (n : Nat) :
    jsTrim ⟨List.replicate n 'a'⟩ = ⟨List.replicate n 'a'⟩ := by
  unfold jsTrim
  rw [dropWhile_ws_replicate_a, List.reverse_replicate, dropWhile_ws_replicate_a,
    List.reverse_replicate]

theorem utf16Len_replicate_a (n : Nat) :
    utf16Len ⟨List.replicate n 'a'⟩ = n := by
  unfold utf16Len
  rw [List.map_replicate]
  rw [show (if 'a'.toNat ≥ 0x10000 then 2 else 1) = 1 by decide]
  simp

theorem replicate_a_string_ne_empty (n : Nat) (h : n ≠ 0) :
    (⟨List.replicate n 'a'⟩ : String) ≠ "" := by
  intro hc
  have := congrArg (fun s : String => s.data.length) hc
  simp at this
  exact h this

theorem amendedMessageOk_replicate_a (n : Nat) (h0 : n ≠ 0) (h1 : n ≤ 2000) :
    amendedMessageOk ⟨List.replicate n 'a'⟩ := by
  unfold amendedMessageOk
  rw [jsTrim_replicate_a, utf16Len_replicate_a]
  refine ⟨replicate_a_string_ne_empty n h0, h1, ?_⟩
  intro cch hc
  have := List.eq_of_mem_replicate hc
  subst this
  decide

/-- C9 (amended): `normalizeMessage` accepts an input iff, after trimming, it
is non-empty, at most 2000 UTF-16 code units long, and contains no C0 control
character other than TAB, **LF and CR**, and no DEL; a body of exactly 2000
such units is accepted and one of 2001 is rejected. -/
theorem C9_message_validation_amended :
    (∀ s : String, (normalizeMessage (some s)).ok = true ↔ amendedMessageOk s) ∧
    (normalizeMessage (some ⟨List.replicate 2000 'a'⟩)).ok = true ∧
    (normalizeMessage (some ⟨List.replicate 2001 'a'⟩)).ok = false := by
  refine ⟨normalizeMessage_ok_iff, ?_, ?_⟩
  · exact (normalizeMessage_ok_iff _).mpr
      (amendedMessageOk_replicate_a 2000 (by omega) (by omega))
  · cases hok : (normalizeMessage (some ⟨List.replicate 2001 'a'⟩)).ok with
    | false => rfl
    | true =>
      exfalso
      have h := (normalizeMessage_ok_iff _).mp hok
      unfold amendedMessageOk at h
      rw [jsTrim_replicate_a, utf16Len_replicate_a] at h
      omega

/-- C2 counterexample: `/msg bob hi` by alice inserts a message whose scope
kind is `dm` but which carries a plaintext `body` and **no**
`encryptedPayload` — violating the claimed invariant. -/
theorem C2_cx_msg_inserts_plaintext_dm :
    (msgCommand { } fixAlice ["bob", "hi"] "c1" "m1" 5).server.store.messages =
      [fixMsgPlaintextDm] ∧
    ¬ dmInvariant fixMsgPlaintextDm := by
  exact ⟨by decide, by decide⟩

/-- C2 (amended): every message inserted by `send_channel_message`,
`send_dm_message`, `/me`, `/notice`, `/reply`, `/thread`, plain text via
`command_exec`, or `/bot run` satisfies the DM-envelope invariant
(scope kind `dm` ⇔ `encryptedPayload` present ∧ `body` absent), and
`message_edit` preserves it on any non-DM-scope message; the invariant does
**not** hold for `/msg` (which inserts a DM-scope plaintext record, see the
counterexample) nor for an edit of a DM-scope message, which sets `body`
alongside `encryptedPayload`. -/
theorem C2_dm_invariant_amended :
    (∀ (sst : ServerState) (c : LiveClient) (t : Option String)
        (p : EncryptedDmPayload) (ci fi : String) (now : Nat),
      ∀ m ∈ (sendDmMessage sst c t p ci fi now).server.store.messages,
        m ∈ sst.store.messages ∨ dmInvariant m) ∧
    (∀ (sst : ServerState) (c : LiveClient) (pc pb : Option String)
        (pk : Option MessageKind) (rt tid : Option String) (fi : String)
        (now mc mw : Nat),
      ∀ m ∈ (sendChannelMessage sst c pc pb pk rt tid fi now mc mw).server.store.messages,
        m ∈ sst.store.messages ∨ dmInvariant m) ∧
    (∀ (sst : ServerState) (c : LiveClient) (cmd : TextCmd) (args : List String)
        (ctx : Option String) (fi : String) (now : Nat),
      ∀ m ∈ (textCommand sst c cmd args ctx fi now).server.store.messages,
        m ∈ sst.store.messages ∨ dmInvariant m) ∧
    (∀ (sst : ServerState) (c : LiveClient) (raw : String) (ctx : Option String)
        (fi : String) (now mc mw : Nat),
      ∀ m ∈ (execPlainText sst c raw ctx fi now mc mw).server.store.messages,
        m ∈ sst.store.messages ∨ dmInvariant m) ∧
    (∀ (sst : ServerState) (c : LiveClient) (args : List String)
        (ctx : Option String) (fi : String) (now : Nat),
      ∀ m ∈ (botRunCommand sst c args ctx fi now).server.store.messages,
        m ∈ sst.store.messages ∨ dmInvariant m) ∧
    (∀ (st : StoreState) (mid b : String) (m0 : MessageRecord),
      findMessage st mid = some m0 → m0.scope.kind ≠ ScopeKind.dm →
      ∀ m' ∈ (editMessage st mid b).1.messages,
        m' ∈ st.messages ∨ dmInvariant m') := by
  refine ⟨?_, ?_, ?_, ?_, ?_, ?_⟩
  · intro sst c t p ci fi now m hm
    unfold sendDmMessage at hm
    dsimp only at hm
    split at hm
    · exact Or.inl hm
    · split at hm
      · exact Or.inl hm
      · simp only [insertMessage, messages_getOrCreateDm, List.mem_append,
          List.mem_singleton] at hm
        rcases hm with h | h
        · exact Or.inl h
        · right
          rw [h]
          unfold dmInvariant buildMessage
          simp
  · intro sst c pc pb pk rt tid fi now mc mw m hm
    unfold sendChannelMessage at hm
    dsimp only at hm
    split at hm
    · exact Or.inl hm
    · split at hm
      · exact Or.inl hm
      · split at hm
        · exact Or.inl hm
        · split at hm
          · exact Or.inl hm
          · split at hm
            · exact Or.inl hm
            · simp only [insertMessage, List.mem_append, List.mem_singleton] at hm
              rcases hm with h | h
              · exact Or.inl h
              · right
                rw [h]
                unfold dmInvariant buildMessage
                by_cases hth : jsTruthyStr tid = true
                · simp [hth]
                · simp [hth]
  · intro sst c cmd args ctx fi now m hm
    unfold textCommand at hm
    dsimp only at hm
    split at hm
    · exact Or.inl hm
    · split at hm
      · exact Or.inl hm
      · simp only [insertMessage, List.mem_append, List.mem_singleton] at hm
        rcases hm with h | h
        · exact Or.inl h
        · right
          rw [h]
          unfold dmInvariant buildMessage
          cases cmd <;> simp
  · intro sst c raw ctx fi now mc mw m hm
    unfold execPlainText at hm
    dsimp only at hm
    split at hm
    · exact Or.inl hm
    · split at hm
      · exact Or.inl hm
      · split at hm
        · exact Or.inl hm
        · simp only [insertMessage, List.mem_append, List.mem_singleton] at hm
          rcases hm with h | h
          · exact Or.inl h
          · right
            rw [h]
            unfold dmInvariant buildMessage
            simp
  · intro sst c args ctx fi now m hm
    unfold botRunCommand at hm
    dsimp only at hm
    split at hm
    · exact Or.inl hm
    · split at hm
      · exact Or.inl hm
      · simp only [insertMessage, List.mem_append, List.mem_singleton] at hm
        rcases hm with h | h
        · exact Or.inl h
        · right
          rw [h]
          unfold dmInvariant
          simp
  · intro st mid b m0 hf hkind m' hm'
    unfold editMessage at hm'
    rw [hf] at hm'
    rcases mem_replaceFirst_of_find _ _ st.messages m0 hf m' hm' with h | h
    · exact Or.inl h
    · right
      rw [h]
      unfold dmInvariant
      simp [hkind]

/-- C2 witness: the amended invariant applied to the concrete record inserted
by alice's `send_dm_message` to bob. -/
theorem C2_dm_invariant_amended_witness :
    fixDmInsertedRecord ∈ ({ } : ServerState).store.messages ∨
      dmInvariant fixDmInsertedRecord := by
  exact C2_dm_invariant_amended.1 { } fixAliceDm (some "bob")
    { ciphertext := "CT" } "c9" "m9" 5 fixDmInsertedRecord (by decide)

end AbyssIRC
